import Mathlib

/-!
Verification of the holiday classification engine.

A shallow embedding, in Lean 4, of the classification subsystem of the
plex-holiday-playlist-maker repository:

* the `HolidayMatcher` keyword/regex scorer (`src/lib/holiday/matcher.ts`
  together with the pattern data of `src/lib/holiday/config.ts`),
* the `HolidayAIClassifier` (`src/lib/ai/classifier.ts`) modelled as a
  deterministic state machine over an explicit database state and a
  backend oracle,
* the classification cache helpers (`src/lib/db/classification-cache.ts`),
* the bulk classification endpoint (`src/app/api/ai-bulk-classify/route.ts`),
* the Wikipedia title scraper (`WikipediaScraper.scrapeTitles`).

TypeScript string-literal union types (such as `Holiday`) are erased at
runtime, so holidays are embedded as plain strings.  JavaScript regular
expressions compiled with the `i` flag are embedded as a small pattern AST
(`Pat`) with an executable backtracking matcher; every pattern literal of
the source is translated node by node below.
-/

namespace PlexHoliday

/-- JavaScript whitespace (`\s`) restricted to the ASCII characters that can
occur in the data handled here: space, tab, line feed, vertical tab, form
feed, carriage return. -/
def wsChars : List Char := [' ', Char.ofNat 9, Char.ofNat 10, Char.ofNat 11, Char.ofNat 12, Char.ofNat 13]

/-- Is `c` a JavaScript `\s` whitespace character? -/
def isWsChar (c : Char) : Bool := wsChars.contains c

/-- JavaScript `\w` word character (`[A-Za-z0-9_]`), used by the `\b`
word-boundary assertion. -/
def isWordChar (c : Char) : Bool := c.isAlphanum || c == '_'

/-- The apostrophe character, written via its code point. -/
def apos : Char := Char.ofNat 39

/-- Pattern AST covering exactly the regular-expression constructs used by
the source's pattern strings: literal characters (case-insensitive, the `i`
flag), character classes, `\s`, `\b`, `?`, concatenation and alternation. -/
inductive Pat where
  | eps : Pat
  | chr : Char → Pat
  | cls : List Char → Pat
  | ws : Pat
  | wb : Pat
  | opt : Pat → Pat
  | cat : Pat → Pat → Pat
  | alt : Pat → Pat → Pat
deriving Repr, DecidableEq

/-- Is there a word boundary between the previous character (`none` at the
start of the string) and the rest of the input? -/
def atBoundary (prev : Option Char) (rest : List Char) : Bool :=
  let left := match prev with | none => false | some c => isWordChar c
  let right := match rest with | [] => false | c :: _ => isWordChar c
  left != right

/-- Backtracking matcher: all ways `p` can consume a prefix of `rest`
(given the character `prev` just before `rest`), returning the new
previous-character/remaining-input pairs.  Character comparisons go through
`Char.toLower`, matching the `i` flag of every compiled source regex. -/
def matchPat : Pat → Option Char → List Char → List (Option Char × List Char)
  | .eps, prev, rest => [(prev, rest)]
  | .chr _, _, [] => []
  | .chr c, _, x :: xs => if x.toLower == c.toLower then [(some x, xs)] else []
  | .cls _, _, [] => []
  | .cls cs, _, x :: xs => if cs.any (fun c => c.toLower == x.toLower) then [(some x, xs)] else []
  | .ws, _, [] => []
  | .ws, _, x :: xs => if isWsChar x then [(some x, xs)] else []
  | .wb, prev, rest => if atBoundary prev rest then [(prev, rest)] else []
  | .opt p, prev, rest => (prev, rest) :: matchPat p prev rest
  | .cat p q, prev, rest => (matchPat p prev rest).flatMap fun pr => matchPat q pr.1 pr.2
  | .alt p q, prev, rest => matchPat p prev rest ++ matchPat q prev rest

/-- Unanchored search: does `p` match starting at some position of the
input?  `prev` is the character just before the current position. -/
def searchFrom (p : Pat) : Option Char → List Char → Bool
  | prev, rest =>
    !(matchPat p prev rest).isEmpty ||
      match rest with
      | [] => false
      | x :: xs => searchFrom p (some x) xs

/-- `RegExp.prototype.test` for a pattern compiled with the `i` flag. -/
def Pat.test (p : Pat) (s : String) : Bool := searchFrom p none s.data

/-- Concatenation of a list of patterns. -/
def pseq (ps : List Pat) : Pat := ps.foldr Pat.cat Pat.eps

/-- A literal string as a pattern (each character case-insensitive). -/
def pstr (s : String) : Pat := pseq (s.data.map Pat.chr)

/-- Alternation `(?:p₀|p₁|...)` of a non-empty list of branches. -/
def palts (p : Pat) (ps : List Pat) : Pat := ps.foldl Pat.alt p

/-- `\b...\b` wrapping used by most curated keyword patterns. -/
def pword (p : Pat) : Pat := Pat.cat Pat.wb (Pat.cat p Pat.wb)

/-! ## Pattern data (`src/lib/holiday/config.ts`)

Each entry below is the node-by-node translation of one regular-expression
string literal of the source, in source order. -/

/-- The string `"Valentine's"`, the fourth curated holiday key. -/
def valentinesName : String := "Valentine" ++ apos.toString ++ "s"

/-- `CURATED_KEYWORDS.Halloween`. -/
def halloweenKeywords : List Pat :=
  [ pword (pseq [pstr "Hallow", Pat.opt (Pat.chr 'e'), pstr "en"])
  , pstr "Treehouse of Horror"
  , pword (pstr "Spooktacular")
  , pword (pseq [pstr "Jack", Pat.cls ['-', ' '], pstr "o", Pat.cls ['-', ' '], pstr "lantern"])
  , pword (pseq [pstr "Trick", Pat.opt (Pat.cls ['-', ' ']), pstr "or", Pat.opt (Pat.cls ['-', ' ']), pstr "Treat"])
  , pword (pseq [pstr "Pumpkin", Pat.opt (Pat.cls ['s'])])
  , pstr "All Hallows"
  , pstr "October 31"
  , pstr "Samhain" ]

/-- `CURATED_KEYWORDS.Thanksgiving`. -/
def thanksgivingKeywords : List Pat :=
  [ pword (pstr "Thanksgiving")
  , pword (pstr "Friendsgiving")
  , pword (pstr "Turkey")
  , pword (pseq [pstr "Pilgrim", Pat.opt (Pat.cls ['s'])])
  , pword (pstr "Parade")
  , pword (pstr "Stuffing")
  , pword (pseq [pstr "Cranberrie", Pat.opt (Pat.chr 's')])
  , pword (pstr "Cornucopia")
  , pword (pstr "Feast")
  , pword (pstr "Gravy")
  , pword (pstr "Gobble")
  , pword (pstr "Harvest")
  , pword (pseq [pstr "Macy", Pat.opt (Pat.chr apos), Pat.chr 's'])
  , pword (pstr "NFL") ]

/-- `CURATED_KEYWORDS.Christmas`. -/
def christmasKeywords : List Pat :=
  [ pword (pstr "Christmas")
  , pword (pseq [pstr "X", Pat.opt (Pat.cls ['-', ' ']), pstr "mas"])
  , pword (pstr "Holiday Special")
  , pword (pstr "Santa")
  , pword (pseq [pstr "St", Pat.opt (Pat.cls ['.']), Pat.opt Pat.ws, pstr "Nick"])
  , pword (pstr "Kris Kringle")
  , pword (pstr "North Pole")
  , pword (pseq [pstr "Mrs", Pat.opt (Pat.chr '.'), Pat.opt Pat.ws, pstr "Claus"])
  , pword (pstr "Mistletoe")
  , pword (pstr "Yuletide")
  , pword (pstr "Elf")
  , pword (pstr "Reindeer")
  , pword (pstr "Frosty")
  , pword (pseq [pstr "Snow", Pat.opt (pstr "man")])
  , pword (pstr "Sleigh")
  , pword (pseq [pstr "Jingle Bell", Pat.opt (Pat.chr 's')])
  , pword (pstr "Nativity")
  , pword (pstr "Carol")
  , pword (pseq [pstr "Gift", Pat.opt (Pat.cls ['s'])])
  , pword (pseq [pstr "Present", Pat.opt (Pat.cls ['s'])])
  , pword (pstr "Secret Santa")
  , pword (pstr "Holiday Party") ]

/-- `CURATED_KEYWORDS["Valentine's"]`. -/
def valentinesKeywords : List Pat :=
  [ pword (pseq [pstr "Valentine", Pat.opt (Pat.chr apos), Pat.opt (Pat.chr 's')])
  , pword (pstr "Cupid")
  , pword (pstr "Romance")
  , pword (pstr "Sweetheart")
  , pword (pstr "Be My Valentine")
  , pword (pseq [pstr "Heart", Pat.opt (Pat.cls ['-', ' ']), pstr "Day"])
  , pword (pstr "Date Night")
  , pword (pstr "Secret Admirer")
  , pword (pstr "Proposal")
  , pword (pstr "Chocolate")
  , pword (pseq [pstr "Ros", Pat.opt (Pat.chr 'e'), Pat.opt (Pat.chr 's')])
  , pword (pseq [pstr "Candy Heart", Pat.opt (Pat.chr 's')]) ]

/-- The keys of `CURATED_KEYWORDS`, in object-literal insertion order
(the order `Object.entries`/`Object.keys` iterate in). -/
def curatedHolidays : List String :=
  ["Halloween", "Thanksgiving", "Christmas", valentinesName]

/-- `CURATED_KEYWORDS` as a lookup from holiday name to compiled pattern
list (empty for holidays outside the curated record). -/
def curatedKeywords (holiday : String) : List Pat :=
  if holiday == "Halloween" then halloweenKeywords
  else if holiday == "Thanksgiving" then thanksgivingKeywords
  else if holiday == "Christmas" then christmasKeywords
  else if holiday == valentinesName then valentinesKeywords
  else []

/-- `EXCLUDE_PATTERNS`, compiled (`compilePatterns` maps every entry through
`new RegExp(pattern, 'i')`). -/
def excludePatterns : List Pat :=
  [ pword (pstr "Christmas Island")
  , pword (pseq [pstr "Turkey ", palts (pstr "vulture") [pstr "shootout", pstr "buzzard", pstr "sandwich"]])
  , pword (pstr "Black Friday")
  , pword (pstr "Talking Turkey")
  , pword (pstr "Cold Turkey")
  , pword (pseq [pstr "Ghost", palts (pseq [pstr "buster", Pat.opt (Pat.chr 's')]) [pstr "writer", pstr "town", pstr "ship", pstr "story"]])
  , pword (pseq [pstr "Monster", palts (pseq [Pat.opt (Pat.chr 's'), pstr " Inc"]) [pstr "truck", pstr "energy", pstr "hunter", pstr "high"]])
  , pword (pseq [pstr "Spooky ", palts (pstr "action") [pstr "distance"]])
  , pword (pseq [pstr "Haunted ", palts (pstr "mansion") [pstr "house"], pstr " ", palts (pstr "party") [pstr "ride", pstr "attraction"]])
  , pword (pseq [pstr "Candy ", palts (pstr "cane") [pstr "shop", pstr "store", pstr "crush", pstr "land", pstr "factory"]])
  , pword (pseq [pstr "Skeleton ", palts (pstr "key") [pstr "crew", pstr "coast"]])
  , pword (pseq [pstr "Witch ", palts (pstr "doctor") [pstr "hazel"]])
  , pword (pseq [pstr "Pumpkin ", palts (pstr "spice") [pstr "pie", pstr "patch", pstr "head", pstr "bread", pseq [pstr "seed", Pat.opt (Pat.chr 's')]]])
  , pword (pseq [pstr "Costume ", palts (pstr "party") [pstr "shop", pstr "designer", pstr "contest", pstr "drama"]])
  , pword (pseq [pstr "Zombie ", palts (pstr "apocalypse") [pstr "outbreak", pstr "virus", pstr "infection", pstr "horde"]]) ]

/-- `HolidayMatcher.getStrongIndicators`: the hand-picked strong-indicator
patterns per curated holiday (empty for any other holiday, matching the
`strongPatterns[holiday] || []` fallback). -/
def strongIndicators (holiday : String) : List Pat :=
  if holiday == "Halloween" then
    [ pword (pseq [pstr "Hallow", Pat.opt (Pat.chr 'e'), pstr "en"])
    , pstr "Treehouse of Horror"
    , pstr "October 31"
    , pstr "All Hallows" ]
  else if holiday == "Thanksgiving" then
    [ pword (pstr "Thanksgiving")
    , pword (pstr "Friendsgiving")
    , pstr "Turkey Day" ]
  else if holiday == "Christmas" then
    [ pword (pstr "Christmas")
    , pword (pseq [pstr "X", Pat.opt (Pat.cls ['-', ' ']), pstr "mas"])
    , pstr "December 25"
    , pstr "Santa"
    , pstr "Ho Ho Ho"
    , pword (pstr "Elf")
    , pword (pstr "Reindeer")
    , pword (pstr "North Pole") ]
  else if holiday == valentinesName then
    [ pword (pseq [pstr "Valentine", Pat.opt (Pat.chr apos), Pat.opt (Pat.chr 's')])
    , pstr "February 14"
    , pstr "Cupid" ]
  else []

/-! ## Media model (`src/types/index.ts`)

`PlexMedia = PlexEpisode | PlexMovie`, discriminated structurally by the
presence of `grandparentTitle`/`seasonNumber`/`index` (`isPlexEpisode`). -/

/-- A media item.  `key` is the stable Plex identifier (`plex_key`),
`index` of an episode is its episode number. -/
inductive PlexMedia where
  | episode (key title : String) (summary : Option String) (grandparentTitle : String)
      (seasonNumber index : Nat) (year : Option Int)
  | movie (key title : String) (summary : Option String) (year : Option Int)
deriving Repr, DecidableEq

/-- The `key` field common to both variants. -/
def PlexMedia.key : PlexMedia → String
  | .episode k _ _ _ _ _ _ => k
  | .movie k _ _ _ => k

/-- The `title` field common to both variants. -/
def PlexMedia.title : PlexMedia → String
  | .episode _ t _ _ _ _ _ => t
  | .movie _ t _ _ => t

/-- The optional `summary` field common to both variants. -/
def PlexMedia.summary : PlexMedia → Option String
  | .episode _ _ s _ _ _ _ => s
  | .movie _ _ s _ => s

/-- The optional `year` field common to both variants. -/
def PlexMedia.year : PlexMedia → Option Int
  | .episode _ _ _ _ _ _ y => y
  | .movie _ _ _ y => y

/-- `isPlexEpisode` type guard. -/
def isPlexEpisode : PlexMedia → Bool
  | .episode .. => true
  | .movie .. => false

/-! ## Title normalization (`HolidayMatcher.isRequiredMovie`) -/

/-- `String.prototype.toLowerCase` on the ASCII titles handled here. -/
def lowerStr (s : String) : String := ⟨s.data.map Char.toLower⟩

/-- Drop all leading JavaScript whitespace characters. -/
def dropWs (cs : List Char) : List Char := cs.dropWhile isWsChar

/-- One alternative of `^(the|a|an)\s+`: if `cs` starts (case-insensitively)
with the word `w` followed by at least one whitespace character, drop the
word and the whole greedy whitespace run. -/
def tryArticle (w : List Char) (cs : List Char) : Option (List Char) :=
  if (cs.take w.length).map Char.toLower == w then
    match cs.drop w.length with
    | c :: rest => if isWsChar c then some (dropWs rest) else none
    | [] => none
  else none

/-- `.replace(/^(the|a|an)\s+/i, '')`: strip one leading article.  The
alternatives are tried in source order (`the`, `a`, `an`), each demanding
trailing whitespace, as the backtracking regex engine does. -/
def stripArticle (cs : List Char) : List Char :=
  match tryArticle "the".data cs with
  | some r => r
  | none =>
    match tryArticle "a".data cs with
    | some r => r
    | none =>
      match tryArticle "an".data cs with
      | some r => r
      | none => cs

/-- The punctuation class of `.replace(/[:\-–—]/g, ' ')`: colon, hyphen,
en dash, em dash. -/
def punctChars : List Char := [':', '-', Char.ofNat 0x2013, Char.ofNat 0x2014]

/-- `.replace(/[:\-–—]/g, ' ')`. -/
def punctToSpace (cs : List Char) : List Char :=
  cs.map fun c => if punctChars.contains c then ' ' else c

/-- `.replace(/\s+/g, ' ')`: collapse each whitespace run to one space.
The flag records whether the previous character was part of a run. -/
def collapseWsAux : Bool → List Char → List Char
  | _, [] => []
  | prevWs, c :: cs =>
    if isWsChar c then
      if prevWs then collapseWsAux true cs else ' ' :: collapseWsAux true cs
    else c :: collapseWsAux false cs

/-- `.replace(/\s+/g, ' ')`. -/
def collapseWs (cs : List Char) : List Char := collapseWsAux false cs

/-- `String.prototype.trim`. -/
def trimWs (cs : List Char) : List Char :=
  ((cs.dropWhile isWsChar).reverse.dropWhile isWsChar).reverse

/-- The normalization chain of `isRequiredMovie`:
`.replace(/^(the|a|an)\s+/i, '').replace(/[:\-–—]/g, ' ').replace(/\s+/g, ' ').trim()`. -/
def normalizeTitle (s : String) : String :=
  ⟨trimWs (collapseWs (punctToSpace (stripArticle s.data)))⟩

/-! ## Required movies

The data module `src/lib/holiday/required-movies.ts` (`REQUIRED_MOVIES`) is
not part of the sources available here; only its consumer
`HolidayMatcher.isRequiredMovie` is. -/

/-- One entry of the required-movie table: a canonical `(title, year)` pair. -/
structure RequiredMovie where
  title : String
  year : Int
deriving Repr, DecidableEq

/-- Modelled from the spec: the `REQUIRED_MOVIES` data file is missing from
the available sources, so the table is modelled from the specification's
example — "A Christmas Carol" with its classic film year is a Christmas
required title (spec section 8); no entries are needed for the other
holidays, whose required lists default to empty
(`REQUIRED_MOVIES[holiday] || []`). -/
def requiredMovies (holiday : String) : List RequiredMovie :=
  if holiday == "Christmas" then [⟨"A Christmas Carol", 1951⟩] else []

/-! ## The matcher (`src/lib/holiday/matcher.ts`)

The constructor compiles, per curated holiday, the curated keyword patterns
followed by one word-bounded literal pattern per supplementary
(Wikipedia-scraped) title.  `additionalTitles` is the constructor argument,
an association list from holiday to scraped title list. -/

/-- Compilation of one scraped title
(`title.replace(/[.*+?^${}()|[\]\\]/g, '\\$&').replace(/\\ /g, '\\s+')`
wrapped in `\b...\b`): escaping a special character yields a literal match
of that character, and — because the escape class does not contain the
space character — the `\\ ` → `\s+` rewrite never fires on a
backslash-free title, so every character is matched literally. -/
def compileScrapedTitle (t : String) : Pat := pword (pstr t)

/-- Association-list lookup (`Map.prototype.get`). -/
def lookupAssoc {α : Type} (m : List (String × α)) (k : String) : Option α :=
  (m.find? fun p => p.1 == k).map (·.2)

/-- `this.includePatterns.get(holiday) || []` after `compilePatterns`:
curated patterns plus compiled scraped titles for curated holidays, empty
otherwise. -/
def includePatternsFor (additionalTitles : List (String × List String)) (holiday : String) : List Pat :=
  if curatedHolidays.contains holiday then
    curatedKeywords holiday ++ ((lookupAssoc additionalTitles holiday).getD []).map compileScrapedTitle
  else []

/-- The exclude-pattern loop of `getMatchScore`: some exclude pattern
matches the item's title or its summary (`media.summary || ''`). -/
def excludeVeto (media : PlexMedia) : Bool :=
  excludePatterns.any fun p => p.test media.title || p.test (media.summary.getD "")

/-- The cross-holiday suppression loop of `getMatchScore`: some *other*
curated holiday has a strong-indicator pattern matching the item's
*title*. -/
def crossSuppress (media : PlexMedia) (holiday : String) : Bool :=
  (curatedHolidays.filter (fun h => h != holiday)).any
    fun other => (strongIndicators other).any fun p => p.test media.title

/-- `HolidayMatcher.getMatchScore`.  The first guard is the exclude-pattern
veto, the second is cross-holiday suppression (title only); otherwise
include patterns score 10 (title) / 3 (summary only) and strong indicators
add 15 (title) / 5 (summary only). -/
def getMatchScore (additionalTitles : List (String × List String)) (media : PlexMedia) (holiday : String) : Nat :=
  let title := media.title
  let summary := media.summary.getD ""
  if excludeVeto media then 0
  else if crossSuppress media holiday then 0
  else
    let score := (includePatternsFor additionalTitles holiday).foldl
      (fun acc p => if p.test title then acc + 10 else if p.test summary then acc + 3 else acc) 0
    (strongIndicators holiday).foldl
      (fun acc p => if p.test title then acc + 15 else if p.test summary then acc + 5 else acc) score

/-- `HolidayMatcher.isRequiredMovie`: movies only; an entry matches by
exact lowercased title with strictly equal year, by exact lowercased title
with a truthy year within ±1, or by article/punctuation-normalized title
with strictly equal year. -/
def isRequiredMovie (media : PlexMedia) (holiday : String) : Bool :=
  if isPlexEpisode media then false
  else
    let mediaTitle := lowerStr media.title
    let mediaYear := media.year
    (requiredMovies holiday).any fun req =>
      let requiredTitle := lowerStr req.title
      (mediaTitle == requiredTitle && mediaYear == some req.year) ||
      (mediaTitle == requiredTitle &&
        (match mediaYear with
         | some y => y != 0 && (y - req.year).natAbs ≤ 1
         | none => false)) ||
      (normalizeTitle mediaTitle == normalizeTitle requiredTitle && mediaYear == some req.year)

/-- `HolidayMatcher.isMatch`: required movies always match, otherwise the
score must reach the fixed threshold 8. -/
def isMatch (additionalTitles : List (String × List String)) (media : PlexMedia) (holiday : String) : Bool :=
  if isRequiredMovie media holiday then true
  else getMatchScore additionalTitles media holiday ≥ 8

/-! ## Forced characters

`minForced φ p` is a lower bound on how many characters satisfying `φ` any
successful match of `p` must consume.  It separates, for example, a title
that matches an exclude pattern from the titles that can ever equal a
required-movie entry. -/

/-- Syntactic lower bound on the number of `φ`-characters consumed by any
match of the pattern. -/
def minForced (φ : Char → Bool) : Pat → Nat
  | .eps => 0
  | .chr c => if φ c then 1 else 0
  | .cls cs => if cs.all φ then 1 else 0
  | .ws => 0
  | .wb => 0
  | .opt _ => 0
  | .cat p q => minForced φ p + minForced φ q
  | .alt p q => min (minForced φ p) (minForced φ q)

/-! ## The forced-letter predicates

`hardLetters` are the lowercase letters that can survive every step of the
normalization chain and do not occur in the modelled required title
"A Christmas Carol"; `softLetters` (`e`, `n`) also do not occur there but
may be lost once, inside a stripped leading article. -/

/-- Letters absent from "a christmas carol" and from the article words. -/
def hardLetters : List Char := ['b', 'd', 'f', 'g', 'j', 'k', 'p', 'q', 'u', 'v', 'w', 'x', 'y', 'z']

/-- Letters absent from "a christmas carol" but present in an article word. -/
def softLetters : List Char := ['e', 'n']

/-- Case-insensitive hard-letter predicate (for arbitrary-case input). -/
def phiHard (c : Char) : Bool := hardLetters.contains c.toLower

/-- Case-insensitive soft-letter predicate. -/
def phiSoft (c : Char) : Bool := softLetters.contains c.toLower

/-- Membership hard-letter predicate (for already-lowercased input). -/
def psiHard (c : Char) : Bool := hardLetters.contains c

/-- Membership soft-letter predicate. -/
def psiSoft (c : Char) : Bool := softLetters.contains c

/-- The include-pattern accumulation of `getMatchScore`, written as a sum:
10 per pattern matching the title, 3 per pattern matching only the
summary. -/
def includeScoreSum (additionalTitles : List (String × List String)) (m : PlexMedia)
    (holiday : String) : Nat :=
  ((includePatternsFor additionalTitles holiday).map fun p =>
    if p.test m.title then 10 else if p.test (m.summary.getD "") then 3 else 0).sum

/-- The strong-indicator accumulation of `getMatchScore`, written as a sum:
15 per indicator matching the title, 5 per indicator matching only the
summary. -/
def strongScoreSum (m : PlexMedia) (holiday : String) : Nat :=
  ((strongIndicators holiday).map fun p =>
    if p.test m.title then 15 else if p.test (m.summary.getD "") then 5 else 0).sum

/-- Replace the summary of a media item, leaving every other field alone. -/
def PlexMedia.withSummary : PlexMedia → Option String → PlexMedia
  | .episode k t _ g sn i y, s => .episode k t s g sn i y
  | .movie k t _ y, s => .movie k t s y

/-! ## Concrete media items used by the matcher claims -/

/-- The spec's example episode (summary present but empty). -/
def treehouseItem : PlexMedia :=
  .episode "tv-1109" "Treehouse of Horror IX" (some "") "The Simpsons" 10 4 none

/-- A movie whose title matches both the include pattern `\bChristmas\b`
and the exclude pattern `\bChristmas Island\b`. -/
def christmasIslandItem : PlexMedia := .movie "mv-0205" "Christmas Island" none none

/-- A movie whose title contains a Halloween strong indicator only. -/
def halloweenTitledItem : PlexMedia := .movie "mv-0310" "Happy Halloween" none none

/-- The modelled required movie itself, with its exact year. -/
def carolItem : PlexMedia := .movie "mv-1951" "A Christmas Carol" none (some 1951)

/-- A movie matching the required entry only after article normalization,
one year off, whose summary trips an exclude pattern. -/
def nearCarolItem : PlexMedia :=
  .movie "mv-1952" "Christmas Carol" (some "Christmas Island") (some 1952)

/-- The required-title comparison exactly as claim C8 words it:
case-insensitive, tolerating a ±1 year difference, and normalizing leading
articles and punctuation-as-whitespace before exact string comparison;
movies only. -/
def claimRequiredCriterion (m : PlexMedia) (holiday : String) : Bool :=
  if isPlexEpisode m then false
  else
    (requiredMovies holiday).any fun req =>
      normalizeTitle (lowerStr m.title) == normalizeTitle (lowerStr req.title) &&
      (match m.year with
       | some y => (y - req.year).natAbs ≤ 1
       | none => false)

/-- The required-title comparison as the code actually implements it (the
amended claim C8): the ±1-year tolerance applies only together with the
*exact* lowercased-title comparison (and a truthy year); the
article/punctuation-normalized comparison demands the exact year; movies
only. -/
def amendedRequiredCriterion (m : PlexMedia) (holiday : String) : Bool :=
  if isPlexEpisode m then false
  else
    (requiredMovies holiday).any fun req =>
      (lowerStr m.title == lowerStr req.title &&
        (m.year == some req.year ||
          (match m.year with
           | some y => y != 0 && (y - req.year).natAbs ≤ 1
           | none => false))) ||
      (normalizeTitle (lowerStr m.title) == normalizeTitle (lowerStr req.title) &&
        m.year == some req.year)

/-! ## The AI classifier (`src/lib/ai/classifier.ts`)

`HolidayAIClassifier.classify` is embedded as a deterministic state machine
over an explicit database state (`Db`, the three tables of the persistence
store) and a backend oracle mapping the index of an attempted chat request
to its outcome.  Asynchronous awaits become plain sequencing; the
`setTimeout` sleeps are recorded in an outcome trace (`delays`, in
seconds). -/

/-- One entry of the raw backend JSON (`rawResult.holidays`). -/
structure RawEntry where
  holiday : String
  confidence : Int
  reason : String
deriving Repr, DecidableEq

/-- One mapped classification
(`HolidayClassification = {holiday, confidence, reason?}`). -/
structure HolidayClassification where
  holiday : String
  confidence : Int
  reason : Option String
deriving Repr, DecidableEq

/-- `AIClassificationResult = {holidays: HolidayClassification[]}`. -/
structure AIClassificationResult where
  holidays : List HolidayClassification
deriving Repr, DecidableEq

/-- The compact request payload built by `classify` (episode and movie
shapes). -/
inductive RequestPayload where
  | episodePayload (title showTitle : String) (season episode : Nat) (description : String)
  | moviePayload (title : String) (year : Option Int) (description : String)
deriving Repr, DecidableEq

/-- One row of `ai_classifications` (media-item id, holiday, confidence,
reason). -/
structure ClassRow where
  mediaItemId : Nat
  holiday : String
  confidence : Int
  reason : Option String
deriving Repr, DecidableEq

/-- One row of `ai_response_cache`. -/
structure CacheRow where
  mediaItemId : Nat
  request : RequestPayload
  response : AIClassificationResult
  model : String
deriving Repr, DecidableEq

/-- The persistence store: `media_items` (serial ids assigned from
`nextId`, unique `plex_key`), `ai_classifications` (unique
`(media_item_id, holiday)`), `ai_response_cache` (unique
`media_item_id`). -/
structure Db where
  nextId : Nat
  mediaItems : List (Nat × PlexMedia)
  classifications : List ClassRow
  responseCache : List CacheRow
deriving Repr, DecidableEq

/-- The empty database. -/
def emptyDb : Db := ⟨0, [], [], []⟩

/-- One outcome of a backend chat-completion attempt, as `classify`
discriminates them: a parsed success (`holidays` key possibly absent), an
HTTP 400 carrying the `content_filter` code, an HTTP 429 (with the
parsed `retry-after` header when one is available), or any other error
(network failure, empty content, unparseable JSON, other statuses). -/
inductive BackendResp where
  | success (holidays? : Option (List RawEntry))
  | contentFilter
  | rateLimit (retryAfter : Option Int)
  | otherError
deriving Repr, DecidableEq

/-- How `classify` ends when it does not return a result: the propagated
error is the rate-limit error after exhausted retries, or whatever other
error was thrown. -/
inductive ClassifyErr where
  | rateLimited
  | other
deriving Repr, DecidableEq

deriving instance DecidableEq for Except

/-- The observable outcome of one `classify` call: the returned result or
propagated error, the updated database, the number of backend requests
issued, and the backoff sleeps performed (seconds, in order). -/
structure ClassifyOutcome where
  result : Except ClassifyErr AIClassificationResult
  db : Db
  backendCalls : Nat
  delays : List Int
deriving Repr, DecidableEq

/-- `maxRetries = 5`. -/
def maxRetries : Nat := 5

/-- `baseDelay = 2` (seconds). -/
def baseDelay : Int := 2

/-- `this.model`. -/
def modelName : String := "gpt-4o"

/-- `holidayNameMap`: the AI's lowercase tokens mapped to the `Holiday`
string values. -/
def holidayNameMap : List (String × String) :=
  [ ("christmas", "Christmas")
  , ("thanksgiving", "Thanksgiving")
  , ("halloween", "Halloween")
  , ("new_years", "New Years")
  , ("hanukkah", "Hanukkah")
  , ("kwanzaa", "Kwanzaa")
  , ("easter", "Easter")
  , ("valentine", valentinesName ++ " Day")
  , ("independence_day", "Independence Day")
  , ("st_patricks", "St. Patrick" ++ apos.toString ++ "s Day")
  , ("april_fools", "April Fools")
  , ("mothers_day", "Mother" ++ apos.toString ++ "s Day")
  , ("fathers_day", "Father" ++ apos.toString ++ "s Day")
  , ("labor_day", "Labor Day")
  , ("memorial_day", "Memorial Day")
  , ("veterans_day", "Veterans Day")
  , ("mardi_gras", "Mardi Gras")
  , ("dia_de_los_muertos", "Dia de los Muertos")
  , ("chinese_new_year", "Chinese New Year")
  , ("diwali", "Diwali")
  , ("ramadan", "Ramadan")
  , ("generic_winter_holiday", "Winter Holiday")
  , ("generic_holiday", "Generic Holiday") ]

/-- The filter-then-map step of `classify`: tokens outside
`holidayNameMap` are silently dropped, recognized ones are mapped to the
canonical holiday name, keeping confidence and reason. -/
def mapHolidays (raw : List RawEntry) : List HolidayClassification :=
  (raw.filter fun h => (lookupAssoc holidayNameMap h.holiday).isSome).map
    fun h => ⟨(lookupAssoc holidayNameMap h.holiday).getD h.holiday, h.confidence, some h.reason⟩

/-- The request payload `classify` builds (episode vs. movie shape,
`description = summary || ''`). -/
def buildPayload (m : PlexMedia) : RequestPayload :=
  match m with
  | .episode _ t s g sn i _ => .episodePayload t g sn i (s.getD "")
  | .movie _ t s y => .moviePayload t y (s.getD "")

/-- `getCachedResult`: join `ai_response_cache` to `media_items` on the
media-item id and select by `plex_key`. -/
def getCachedResult (db : Db) (plexKey : String) : Option AIClassificationResult :=
  match db.mediaItems.find? (fun r => r.2.key == plexKey) with
  | none => none
  | some r => (db.responseCache.find? (fun c => c.mediaItemId == r.1)).map (·.response)

/-- `storeMediaItem`: `INSERT ... ON CONFLICT (plex_key) DO NOTHING
RETURNING id`, falling back to selecting the existing row's id. -/
def storeMediaItem (db : Db) (m : PlexMedia) : Nat × Db :=
  match db.mediaItems.find? (fun r => r.2.key == m.key) with
  | some r => (r.1, db)
  | none =>
    (db.nextId,
      { db with
        nextId := db.nextId + 1
        mediaItems := db.mediaItems ++ [(db.nextId, m)] })

/-- `storeClassifications`: one conflict-do-nothing insert per entry, keyed
on `(media_item_id, holiday)`. -/
def storeClassifications (db : Db) (mediaItemId : Nat)
    (classifications : List HolidayClassification) : Db :=
  classifications.foldl
    (fun d c =>
      if d.classifications.any (fun row => row.mediaItemId == mediaItemId && row.holiday == c.holiday)
      then d
      else { d with classifications :=
        d.classifications ++ [⟨mediaItemId, c.holiday, c.confidence, c.reason⟩] })
    db

/-- `cacheResponse`: conflict-do-nothing insert keyed on
`media_item_id`. -/
def cacheResponse (db : Db) (mediaItemId : Nat) (request : RequestPayload)
    (response : AIClassificationResult) : Db :=
  if db.responseCache.any (fun row => row.mediaItemId == mediaItemId) then db
  else { db with responseCache := db.responseCache ++ [⟨mediaItemId, request, response, modelName⟩] }

/-- The retry loop of `classify` (`while (retries <= maxRetries)`).  The
fuel argument bounds the iterations; it starts at `maxRetries + 1`, which
the loop can never exceed because `retries` grows with every continue.
On success the mapped result is stored (media item, classification rows,
response cache) and returned; on a content-filter error the media item and
an empty-result cache entry are written and the empty result returned; on
429 with retries left the delay (retry-after if available, otherwise
`baseDelay * 2 ^ (retries - 1)` for the incremented retry count) is slept
and the loop continues; any other error — and a 429 with no retries
left — is propagated. -/
def classifyGo (backend : Nat → BackendResp) (m : PlexMedia) (payload : RequestPayload) :
    Nat → Nat → Db → Nat → List Int → ClassifyOutcome
  | 0, _, db, calls, delays => ⟨.error .other, db, calls, delays⟩
  | fuel + 1, retries, db, calls, delays =>
    match backend calls with
    | .success holidays? =>
      let mapped := mapHolidays (holidays?.getD [])
      let result : AIClassificationResult := ⟨mapped⟩
      let step := storeMediaItem db m
      let db2 := storeClassifications step.2 step.1 mapped
      let db3 := cacheResponse db2 step.1 payload result
      ⟨.ok result, db3, calls + 1, delays⟩
    | .contentFilter =>
      let emptyResult : AIClassificationResult := ⟨[]⟩
      let step := storeMediaItem db m
      let db2 := cacheResponse step.2 step.1 payload emptyResult
      ⟨.ok emptyResult, db2, calls + 1, delays⟩
    | .rateLimit retryAfter =>
      if retries < maxRetries then
        let retries1 := retries + 1
        let d := match retryAfter with
          | some r => r
          | none => baseDelay * 2 ^ (retries1 - 1)
        classifyGo backend m payload fuel retries1 db (calls + 1) (delays ++ [d])
      else ⟨.error .rateLimited, db, calls + 1, delays⟩
    | .otherError => ⟨.error .other, db, calls + 1, delays⟩

/-- `HolidayAIClassifier.classify`: check the cache first and return
immediately on a hit; otherwise build the payload and run the retry
loop. -/
def classify (backend : Nat → BackendResp) (db : Db) (m : PlexMedia) : ClassifyOutcome :=
  match getCachedResult db m.key with
  | some cached => ⟨.ok cached, db, 0, []⟩
  | none => classifyGo backend m (buildPayload m) (maxRetries + 1) 0 db 0 []

/-- Database well-formedness, as the store's constraints guarantee it:
media-item ids are below `nextId`, cache rows reference existing ids (so
also below `nextId`), and `plex_key` is unique. -/
def Db.WF (db : Db) : Prop :=
  (∀ r ∈ db.mediaItems, r.1 < db.nextId) ∧
  (∀ c ∈ db.responseCache, c.mediaItemId < db.nextId) ∧
  db.mediaItems.Pairwise (fun a b => a.2.key ≠ b.2.key)

/-! ## The classification cache (`src/lib/db/classification-cache.ts`) -/

/-- `CachedClassification`. -/
structure CachedClassification where
  plexKey : String
  holidays : List HolidayClassification
deriving Repr, DecidableEq

/-- `Map.prototype.set` on an association list: update in place when the
key exists, append otherwise. -/
def mapSet {α : Type} (m : List (String × α)) (k : String) (v : α) : List (String × α) :=
  if m.any (fun p => p.1 == k) then m.map (fun p => if p.1 == k then (k, v) else p)
  else m ++ [(k, v)]

/-- `getBulkCachedClassifications`: one bulk query joining
`ai_response_cache` to `media_items`, restricted to the requested plex
keys; rows are folded into a Map keyed by `plex_key` with
`holidays = responsePayload.holidays || []`. -/
def getBulkCachedClassifications (db : Db) (plexKeys : List String) :
    List (String × CachedClassification) :=
  (db.responseCache.filterMap fun c =>
    match db.mediaItems.find? (fun r => r.1 == c.mediaItemId) with
    | some r =>
      if plexKeys.contains r.2.key then
        some (r.2.key, CachedClassification.mk r.2.key c.response.holidays)
      else none
    | none => none).foldl (fun acc kv => mapSet acc kv.1 kv.2) []

/-- `partitionMediaByCache`: bulk-look up every key, then split the batch
into `cached` pairs and `needsClassification` items, preserving input
order. -/
def partitionMediaByCache (db : Db) (mediaItems : List PlexMedia) :
    List (PlexMedia × CachedClassification) × List PlexMedia :=
  let cachedResults := getBulkCachedClassifications db (mediaItems.map (·.key))
  mediaItems.foldl
    (fun acc media =>
      match lookupAssoc cachedResults media.key with
      | some cachedResult => (acc.1 ++ [(media, cachedResult)], acc.2)
      | none => (acc.1, acc.2 ++ [media]))
    ([], [])

/-! ## The bulk classification endpoint (`src/app/api/ai-bulk-classify/route.ts`) -/

/-- The filter the route applies to every classification list before it
may enter the output map: confidence at least 70 and a selected holiday. -/
def routeFilter (selectedHolidays : List String) (hs : List HolidayClassification) :
    List HolidayClassification :=
  hs.filter fun h => decide (70 ≤ h.confidence) && selectedHolidays.contains h.holiday

/-- The observable outcome of the bulk endpoint: the results map, the
database state, and the `classified` counter. -/
structure BulkOutcome where
  results : List (String × List HolidayClassification)
  db : Db
  classified : Nat
deriving Repr, DecidableEq

/-- Step 1 of the route: fold the batch over the bulk cache lookup,
filtering cached hits into the results map (only non-empty filtered lists
are set) and collecting the misses. -/
def bulkCacheStep (selectedHolidays : List String)
    (cachedResults : List (String × CachedClassification)) (media : List PlexMedia) :
    List (String × List HolidayClassification) × List PlexMedia :=
  media.foldl
    (fun acc item =>
      match lookupAssoc cachedResults item.key with
      | some cached =>
        let filtered := routeFilter selectedHolidays cached.holidays
        if 0 < filtered.length then (mapSet acc.1 item.key filtered, acc.2) else acc
      | none => (acc.1, acc.2 ++ [item]))
    ([], [])

/-- Step 2 of the route (AI mode): sequentially classify the misses,
filtering each fresh result the same way; a failed item is skipped and the
loop continues. -/
def bulkClassifyStep (selectedHolidays : List String)
    (backend : PlexMedia → Nat → BackendResp) :
    List PlexMedia → BulkOutcome → BulkOutcome
  | [], acc => acc
  | item :: rest, acc =>
    let out := classify (backend item) acc.db item
    match out.result with
    | .ok r =>
      let filtered := routeFilter selectedHolidays r.holidays
      let results1 :=
        if 0 < filtered.length then mapSet acc.results item.key filtered else acc.results
      bulkClassifyStep selectedHolidays backend rest ⟨results1, out.db, acc.classified + 1⟩
    | .error _ => bulkClassifyStep selectedHolidays backend rest ⟨acc.results, out.db, acc.classified⟩

/-- The `POST` handler core: cache partition, then (when `useAI`) the
sequential classification loop over the misses. -/
def bulkClassifyPOST (media : List PlexMedia) (selectedHolidays : List String) (useAI : Bool)
    (db : Db) (backend : PlexMedia → Nat → BackendResp) : BulkOutcome :=
  let cachedResults := getBulkCachedClassifications db (media.map (·.key))
  let step1 := bulkCacheStep selectedHolidays cachedResults media
  if useAI then bulkClassifyStep selectedHolidays backend step1.2 ⟨step1.1, db, 0⟩
  else ⟨step1.1, db, 0⟩

/-! ## The Wikipedia scraper (`WikipediaScraper.scrapeTitles`) -/

/-- A JSON value in the scrape response or the local cache: an array of
titles, or anything else (numbers, objects — skipped by the
`Array.isArray` checks). -/
inductive JsonVal where
  | arr (titles : List String)
  | other
deriving Repr, DecidableEq

/-- One fetch of `/api/scrape-wikipedia`, as `scrapeTitles` discriminates
it: a rejected fetch or unparseable body, a non-ok HTTP status, or parsed
JSON data optionally carrying an `error` (+ `details`) field. -/
inductive FetchOutcome where
  | netFail
  | httpFail (status : Nat)
  | okData (err : Option (String × Option String)) (entries : List (String × JsonVal))
deriving Repr, DecidableEq

/-- The cache-hit scan: entries whose key starts with `wiki_titles::` and
whose value is an array, keyed by the suffix holiday name, filtered by the
selected holidays when given. -/
def scrapeCacheResults (cacheData : List (String × JsonVal))
    (selected : Option (List String)) : List (String × List String) :=
  cacheData.filterMap fun kv =>
    if kv.1.startsWith "wiki_titles::" then
      match kv.2 with
      | .arr titles =>
        let holiday := kv.1.drop 13
        if (match selected with | none => true | some sel => sel.contains holiday) then
          some (holiday, titles)
        else none
      | .other => none
    else none

/-- The try-block of the fetch path as an exception-typed computation:
a rejected fetch, a non-ok status (`API returned ...` throw) and a
payload-level `error` field (`data.error` throw) are exceptions; otherwise
the array-valued entries (skipping `_metadata`) are filtered by the
selected holidays. -/
def scrapeFetchBody (fetch : FetchOutcome) (selected : Option (List String)) :
    Except Unit (List (String × List String)) :=
  match fetch with
  | .netFail => .error ()
  | .httpFail _ => .error ()
  | .okData (some _) _ => .error ()
  | .okData none entries =>
    .ok (entries.filterMap fun kv =>
      if kv.1 == "_metadata" then none
      else
        match kv.2 with
        | .arr titles =>
          if (match selected with | none => true | some sel => sel.contains kv.1) then
            some (kv.1, titles)
          else none
        | .other => none)

/-- `WikipediaScraper.scrapeTitles`: skip short-circuits to an empty map
with no I/O; a populated cache answers without fetching; otherwise one
fetch is issued and any failure inside the try-block degrades to an empty
map.  The second component counts the fetches issued. -/
def scrapeTitles (skipScrape : Bool) (cache : Option (List (String × JsonVal)))
    (selected : Option (List String)) (fetch : FetchOutcome) :
    List (String × List String) × Nat :=
  if skipScrape then ([], 0)
  else
    let cacheHit :=
      match cache with
      | some cacheData =>
        let results := scrapeCacheResults cacheData selected
        if 0 < results.length then some results else none
      | none => none
    match cacheHit with
    | some results => (results, 0)
    | none =>
      match scrapeFetchBody fetch selected with
      | .ok results => (results, 1)
      | .error _ => ([], 1)

/-- Does this fetch outcome make the try-block throw?  (Network failure,
malformed response, non-ok status, or an error-carrying payload from a
blocked source.) -/
def fetchFails (fetch : FetchOutcome) : Bool :=
  match fetch with
  | .netFail => true
  | .httpFail _ => true
  | .okData (some _) _ => true
  | .okData none _ => false

/-! ## Concrete inputs used by witnesses and counterexamples -/

/-- A raw backend response entry below the 70-confidence floor. -/
def rawBelow70 : List RawEntry := [⟨"christmas", 50, "weak festive hint"⟩]

/-- A raw backend response entry above the floor. -/
def rawAbove70 : List RawEntry := [⟨"christmas", 90, "santa all over"⟩]

/-- Generic movies for exercising the classifier. -/
def lowConfItem : PlexMedia := .movie "mv-lc" "Winter Film" none (some 1999)

def bulkItem : PlexMedia := .movie "mv-b1" "Some Winter Tale" none none

def c2Item : PlexMedia := .movie "mv-c2" "Plain Film" none none

def c3Item : PlexMedia := .movie "mv-c3" "Harmless Film" (some "gore") none

def c4Item : PlexMedia := .movie "mv-c4" "Busy Film" none none

/-- Backends with a fixed behavior. -/
def okEmptyBackend : Nat → BackendResp := fun _ => .success (some [])

def below70Backend : Nat → BackendResp := fun _ => .success (some rawBelow70)

def bulkBackend : PlexMedia → Nat → BackendResp := fun _ _ => .success (some rawAbove70)

def cfBackend : Nat → BackendResp := fun _ => .contentFilter

def rlBackend : Nat → BackendResp := fun _ => .rateLimit none

/-- The delay `classify` sleeps after the failed attempt of index `i`
(0-based): the backend-supplied retry-after when present, otherwise the
exponential backoff `baseDelay * 2 ^ i`. -/
def backoffDelay (ra : Nat → Option Int) (i : Nat) : Int :=
  match ra i with
  | some r => r
  | none => baseDelay * 2 ^ i

/-- The confidence-floor invariant of the route's results map. -/
def ResultsOK (selectedHolidays : List String)
    (results : List (String × List HolidayClassification)) : Prop :=
  ∀ kv ∈ results, ∀ h ∈ kv.2, 70 ≤ h.confidence ∧ h.holiday ∈ selectedHolidays

/-! ## Theorems -/

/-- A match of `p` consumes at least `minForced φ p` characters satisfying
`φ`, provided `φ` only depends on the lowercased character (so that the
case-insensitive comparison preserves it). -/
theorem matchPat_countP (φ : Char → Bool)
    (hφ : ∀ a b : Char, a.toLower = b.toLower → φ a = φ b) :
    ∀ (p : Pat) (prev : Option Char) (rest : List Char)
      (pr : Option Char × List Char), pr ∈ matchPat p prev rest →
      minForced φ p + pr.2.countP φ ≤ rest.countP φ := by
  intro p
  induction p with
  | eps =>
    intro prev rest pr h
    rw [matchPat, List.mem_singleton] at h
    subst h
    simp [minForced]
  | chr c =>
    intro prev rest pr h
    match rest with
    | [] => simp [matchPat] at h
    | x :: xs =>
      rw [matchPat] at h
      by_cases hx : x.toLower == c.toLower
      · rw [if_pos hx, List.mem_singleton] at h
        subst h
        have hfx : φ x = φ c := hφ x c (by exact beq_iff_eq.mp hx)
        rw [minForced, List.countP_cons, hfx]
        by_cases hc : φ c
        · simp [hc]
          omega
        · simp [hc]
      · rw [if_neg hx] at h
        simp at h
  | cls cs =>
    intro prev rest pr h
    match rest with
    | [] => simp [matchPat] at h
    | x :: xs =>
      rw [matchPat] at h
      by_cases hx : cs.any (fun c => c.toLower == x.toLower)
      · rw [if_pos hx, List.mem_singleton] at h
        subst h
        rw [minForced, List.countP_cons]
        by_cases hall : cs.all φ
        · obtain ⟨c, hc, hcx⟩ := List.any_eq_true.mp hx
          have hfx : φ x = φ c := (hφ c x (beq_iff_eq.mp hcx)).symm
          have hfc : φ c = true := List.all_eq_true.mp hall c hc
          simp [hall, hfx, hfc]
          omega
        · simp [hall]
      · rw [if_neg hx] at h
        simp at h
  | ws =>
    intro prev rest pr h
    match rest with
    | [] => simp [matchPat] at h
    | x :: xs =>
      rw [matchPat] at h
      by_cases hx : isWsChar x
      · rw [if_pos hx, List.mem_singleton] at h
        subst h
        simp [minForced, List.countP_cons]
      · rw [if_neg hx] at h
        simp at h
  | wb =>
    intro prev rest pr h
    rw [matchPat] at h
    by_cases hb : atBoundary prev rest
    · rw [if_pos hb, List.mem_singleton] at h
      subst h
      simp [minForced]
    · rw [if_neg hb] at h
      simp at h
  | opt p ihp =>
    intro prev rest pr h
    rw [matchPat, List.mem_cons] at h
    rcases h with h | h
    · subst h
      simp [minForced]
    · have := ihp prev rest pr h
      rw [minForced]
      omega
  | cat p q ihp ihq =>
    intro prev rest pr h
    rw [matchPat, List.mem_flatMap] at h
    obtain ⟨mid, hmid, hpr⟩ := h
    have h1 := ihp prev rest mid hmid
    have h2 := ihq mid.1 mid.2 pr hpr
    rw [minForced]
    omega
  | alt p q ihp ihq =>
    intro prev rest pr h
    rw [matchPat] at h
    rcases List.mem_append.mp h with h | h
    · have := ihp prev rest pr h
      rw [minForced]
      omega
    · have := ihq prev rest pr h
      rw [minForced]
      omega

/-- An unanchored search hit forces at least `minForced φ p` many
`φ`-characters somewhere in the input. -/
theorem searchFrom_countP (φ : Char → Bool)
    (hφ : ∀ a b : Char, a.toLower = b.toLower → φ a = φ b) (p : Pat) :
    ∀ (rest : List Char) (prev : Option Char),
      searchFrom p prev rest = true → minForced φ p ≤ rest.countP φ := by
  intro rest
  induction rest with
  | nil =>
    intro prev h
    rw [searchFrom] at h
    simp only [Bool.or_eq_true] at h
    rcases h with h | h
    · rw [Bool.not_eq_true', List.isEmpty_eq_false, ← List.length_pos_iff_ne_nil] at h
      obtain ⟨pr, hpr⟩ := List.exists_mem_of_length_pos h
      have := matchPat_countP φ hφ p prev [] pr hpr
      omega
    · simp at h
  | cons x xs ih =>
    intro prev h
    rw [searchFrom] at h
    simp only [Bool.or_eq_true] at h
    rcases h with h | h
    · rw [Bool.not_eq_true', List.isEmpty_eq_false, ← List.length_pos_iff_ne_nil] at h
      obtain ⟨pr, hpr⟩ := List.exists_mem_of_length_pos h
      have := matchPat_countP φ hφ p prev (x :: xs) pr hpr
      omega
    · have := ih (some x) h
      rw [List.countP_cons]
      omega

/-- `Pat.test` version of the forcing bound. -/
theorem test_countP (φ : Char → Bool)
    (hφ : ∀ a b : Char, a.toLower = b.toLower → φ a = φ b) (p : Pat) (s : String)
    (h : p.test s = true) : minForced φ p ≤ s.data.countP φ :=
  searchFrom_countP φ hφ p s.data none h

/-! ## Character counts through the normalization chain -/

/-- Two pointwise-equal predicates count the same. -/
theorem countP_ext (p q : Char → Bool) (h : ∀ c, p c = q c) (l : List Char) :
    l.countP p = l.countP q := by
  induction l with
  | nil => rfl
  | cons c cs ih => rw [List.countP_cons, List.countP_cons, h, ih]

/-- `dropWhile` by a predicate disjoint from `ψ` preserves `ψ`-counts. -/
theorem countP_dropWhile (ψ f : Char → Bool) (h : ∀ c, f c = true → ψ c = false) :
    ∀ cs : List Char, (cs.dropWhile f).countP ψ = cs.countP ψ := by
  intro cs
  induction cs with
  | nil => rfl
  | cons c cs ih =>
    rw [List.dropWhile_cons]
    by_cases hc : f c
    · rw [if_pos hc, ih, List.countP_cons, h c hc]
      simp
    · rw [if_neg hc]

/-- Trimming whitespace preserves counts of non-whitespace predicates. -/
theorem countP_trimWs (ψ : Char → Bool) (hws : ∀ c, isWsChar c = true → ψ c = false)
    (cs : List Char) : (trimWs cs).countP ψ = cs.countP ψ := by
  rw [trimWs, List.countP_reverse, countP_dropWhile ψ isWsChar hws,
    List.countP_reverse, countP_dropWhile ψ isWsChar hws]

/-- Whitespace collapsing preserves counts of non-whitespace predicates. -/
theorem countP_collapseWsAux (ψ : Char → Bool) (hws : ∀ c, isWsChar c = true → ψ c = false) :
    ∀ (cs : List Char) (b : Bool), (collapseWsAux b cs).countP ψ = cs.countP ψ := by
  intro cs
  induction cs with
  | nil => intro b; rfl
  | cons c cs ih =>
    intro b
    rw [collapseWsAux]
    by_cases hc : isWsChar c
    · rw [if_pos hc]
      have hsp : ψ ' ' = false := hws ' ' (by decide)
      by_cases hb : b
      · rw [if_pos hb, ih, List.countP_cons, hws c hc]
        simp
      · rw [if_neg hb, List.countP_cons, List.countP_cons, hws c hc, hsp, ih]
    · rw [if_neg hc, List.countP_cons, List.countP_cons, ih]

/-- Punctuation-to-space rewriting preserves counts of predicates false on
punctuation and on the space character. -/
theorem countP_punctToSpace (ψ : Char → Bool)
    (hp : ∀ c, punctChars.contains c = true → ψ c = false)
    (hsp : ψ ' ' = false)
    (cs : List Char) : (punctToSpace cs).countP ψ = cs.countP ψ := by
  rw [punctToSpace, List.countP_map]
  refine countP_ext _ _ (fun c => ?_) cs
  show ψ (if punctChars.contains c then ' ' else c) = ψ c
  by_cases hc : punctChars.contains c
  · rw [if_pos hc, hsp, hp c hc]
  · rw [if_neg hc]

/-- Dropping one article alternative loses at most the `ψ`-count of the
article word itself. -/
theorem tryArticle_countP (ψ : Char → Bool)
    (hws : ∀ c, isWsChar c = true → ψ c = false)
    (hlow : ∀ c, ψ c = true → ψ c.toLower = true)
    (w cs r : List Char) (h : tryArticle w cs = some r) :
    cs.countP ψ ≤ r.countP ψ + w.countP ψ := by
  rw [tryArticle] at h
  by_cases htake : (cs.take w.length).map Char.toLower == w
  · rw [if_pos htake] at h
    match hdrop : cs.drop w.length with
    | [] => rw [hdrop] at h; exact absurd h (by simp)
    | c :: rest =>
      rw [hdrop] at h
      have h' : (if isWsChar c = true then some (dropWs rest) else none) = some r := h
      by_cases hc : isWsChar c
      · rw [if_pos hc, Option.some_inj] at h'
        rw [← h']
        have hsplit : cs.countP ψ = (cs.take w.length).countP ψ + (c :: rest).countP ψ := by
          conv_lhs => rw [← List.take_append_drop w.length cs]
          rw [List.countP_append, hdrop]
        have htk : (cs.take w.length).countP ψ ≤ w.countP ψ := by
          have h1 : (cs.take w.length).countP ψ ≤
              (cs.take w.length).countP (fun a => ψ a.toLower) :=
            List.countP_mono_left (fun a _ ha => hlow a ha)
          have h2 : (cs.take w.length).countP (fun a => ψ a.toLower) =
              ((cs.take w.length).map Char.toLower).countP ψ := by
            rw [List.countP_map]; rfl
          have h3 : (cs.take w.length).map Char.toLower = w := beq_iff_eq.mp htake
          rw [h2, h3] at h1
          exact h1
        have hdw : (rest.dropWhile isWsChar).countP ψ = rest.countP ψ :=
          countP_dropWhile ψ isWsChar hws rest
        have hdws : (dropWs rest).countP ψ = rest.countP ψ := hdw
        rw [hsplit, List.countP_cons, hws c hc, hdws]
        simp
        omega
      · rw [if_neg hc] at h'
        exact absurd h' (by simp)
  · rw [if_neg htake] at h
    exact absurd h (by simp)

/-- Stripping the leading article loses at most `k` `ψ`-characters when
each article word contains at most `k` of them. -/
theorem stripArticle_countP (ψ : Char → Bool)
    (hws : ∀ c, isWsChar c = true → ψ c = false)
    (hlow : ∀ c, ψ c = true → ψ c.toLower = true)
    (k : Nat) (hthe : "the".data.countP ψ ≤ k) (ha : "a".data.countP ψ ≤ k)
    (han : "an".data.countP ψ ≤ k) (cs : List Char) :
    cs.countP ψ ≤ (stripArticle cs).countP ψ + k := by
  unfold stripArticle
  split
  next r h1 =>
    have := tryArticle_countP ψ hws hlow "the".data cs r h1
    omega
  next =>
    split
    next r h2 =>
      have := tryArticle_countP ψ hws hlow "a".data cs r h2
      omega
    next =>
      split
      next r h3 =>
        have := tryArticle_countP ψ hws hlow "an".data cs r h3
        omega
      next => omega

/-- The full normalization chain of `isRequiredMovie` loses at most `k`
`ψ`-characters, `k` bounding the `ψ`-count of each article word. -/
theorem normalizeTitle_countP (ψ : Char → Bool)
    (hws : ∀ c, isWsChar c = true → ψ c = false)
    (hlow : ∀ c, ψ c = true → ψ c.toLower = true)
    (hp : ∀ c, punctChars.contains c = true → ψ c = false)
    (k : Nat) (hthe : "the".data.countP ψ ≤ k) (ha : "a".data.countP ψ ≤ k)
    (han : "an".data.countP ψ ≤ k) (s : String) :
    s.data.countP ψ ≤ (normalizeTitle s).data.countP ψ + k := by
  have h1 := stripArticle_countP ψ hws hlow k hthe ha han s.data
  have h2 := countP_punctToSpace ψ hp (hws ' ' (by decide)) (stripArticle s.data)
  have h3 := countP_collapseWsAux ψ hws (punctToSpace (stripArticle s.data)) false
  have h4 := countP_trimWs ψ hws (collapseWsAux false (punctToSpace (stripArticle s.data)))
  show s.data.countP ψ ≤
    (trimWs (collapseWsAux false (punctToSpace (stripArticle s.data)))).countP ψ + k
  omega

theorem phiHard_lower_inv (a b : Char) (h : a.toLower = b.toLower) : phiHard a = phiHard b := by
  rw [phiHard, phiHard, h]

theorem phiSoft_lower_inv (a b : Char) (h : a.toLower = b.toLower) : phiSoft a = phiSoft b := by
  rw [phiSoft, phiSoft, h]

theorem psiHard_ws (c : Char) (h : isWsChar c = true) : psiHard c = false := by
  have hm : c ∈ wsChars := by simpa [isWsChar] using h
  fin_cases hm <;> decide

theorem psiSoft_ws (c : Char) (h : isWsChar c = true) : psiSoft c = false := by
  have hm : c ∈ wsChars := by simpa [isWsChar] using h
  fin_cases hm <;> decide

theorem psiHard_lower (c : Char) (h : psiHard c = true) : psiHard c.toLower = true := by
  have hm : c ∈ hardLetters := by simpa [psiHard] using h
  fin_cases hm <;> decide

theorem psiSoft_lower (c : Char) (h : psiSoft c = true) : psiSoft c.toLower = true := by
  have hm : c ∈ softLetters := by simpa [psiSoft] using h
  fin_cases hm <;> decide

theorem psiHard_punct (c : Char) (h : punctChars.contains c = true) : psiHard c = false := by
  have hm : c ∈ punctChars := by simpa using h
  fin_cases hm <;> decide

theorem psiSoft_punct (c : Char) (h : punctChars.contains c = true) : psiSoft c = false := by
  have hm : c ∈ punctChars := by simpa using h
  fin_cases hm <;> decide

/-- Counting `psi` over the lowercased string equals counting `phi` over
the original: `phiHard = psiHard ∘ Char.toLower` definitionally. -/
theorem countP_lowerStr_hard (s : String) :
    (lowerStr s).data.countP psiHard = s.data.countP phiHard := by
  rw [lowerStr]
  show (s.data.map Char.toLower).countP psiHard = s.data.countP phiHard
  rw [List.countP_map]
  rfl

theorem countP_lowerStr_soft (s : String) :
    (lowerStr s).data.countP psiSoft = s.data.countP phiSoft := by
  rw [lowerStr]
  show (s.data.map Char.toLower).countP psiSoft = s.data.countP phiSoft
  rw [List.countP_map]
  rfl

/-- A title forcing a hard letter, or two soft letters, can never pass any
of `isRequiredMovie`'s three comparisons against the modelled
required-movie table: the exact comparisons fail because
"a christmas carol" contains no such letter, and the normalized comparison
fails because normalization preserves hard letters and loses at most one
soft letter while "christmas carol" contains none. -/
theorem isRequiredMovie_eq_false_of_forced (m : PlexMedia)
    (h : 1 ≤ m.title.data.countP phiHard ∨ 2 ≤ m.title.data.countP phiSoft)
    (holiday : String) : isRequiredMovie m holiday = false := by
  match m with
  | .episode .. => rfl
  | .movie k t s y =>
    replace h : 1 ≤ t.data.countP phiHard ∨ 2 ≤ t.data.countP phiSoft := h
    have heq : (lowerStr t == lowerStr "A Christmas Carol") = false := by
      rw [beq_eq_false_iff_ne]
      intro hcontra
      rcases h with h1 | h2
      · have := countP_lowerStr_hard t
        rw [hcontra] at this
        have hz : (lowerStr "A Christmas Carol").data.countP psiHard = 0 := by decide
        omega
      · have := countP_lowerStr_soft t
        rw [hcontra] at this
        have hz : (lowerStr "A Christmas Carol").data.countP psiSoft = 0 := by decide
        omega
    have hneq : (normalizeTitle (lowerStr t) == normalizeTitle (lowerStr "A Christmas Carol")) = false := by
      rw [beq_eq_false_iff_ne]
      intro hcontra
      rcases h with h1 | h2
      · have hc1 : (lowerStr t).data.countP psiHard ≤
            (normalizeTitle (lowerStr t)).data.countP psiHard + 0 :=
          normalizeTitle_countP psiHard psiHard_ws psiHard_lower psiHard_punct 0
            (by decide) (by decide) (by decide) (lowerStr t)
        have hc2 := countP_lowerStr_hard t
        rw [hcontra] at hc1
        have hz : (normalizeTitle (lowerStr "A Christmas Carol")).data.countP psiHard = 0 := by decide
        omega
      · have hc1 : (lowerStr t).data.countP psiSoft ≤
            (normalizeTitle (lowerStr t)).data.countP psiSoft + 1 :=
          normalizeTitle_countP psiSoft psiSoft_ws psiSoft_lower psiSoft_punct 1
            (by decide) (by decide) (by decide) (lowerStr t)
        have hc2 := countP_lowerStr_soft t
        rw [hcontra] at hc1
        have hz : (normalizeTitle (lowerStr "A Christmas Carol")).data.countP psiSoft = 0 := by decide
        omega
    unfold isRequiredMovie
    unfold requiredMovies
    by_cases hh : holiday == "Christmas"
    · rw [if_pos hh]
      simp [isPlexEpisode, PlexMedia.title, heq, hneq]
    · rw [if_neg hh]
      simp [isPlexEpisode]

/-- Every exclude pattern forces one hard letter or two soft letters into
anything it matches. -/
theorem excludePatterns_forced :
    ∀ p ∈ excludePatterns, 1 ≤ minForced phiHard p ∨ 2 ≤ minForced phiSoft p := by
  decide

/-- Every strong indicator of the three non-Christmas curated holidays
forces a hard letter into anything it matches. -/
theorem strongIndicators_forced :
    ∀ h0 ∈ ["Halloween", "Thanksgiving", valentinesName],
      ∀ p ∈ strongIndicators h0, 1 ≤ minForced phiHard p := by
  decide

/-- A title matched by some exclude pattern carries the forced letters. -/
theorem counts_of_exclude_title (t : String) (p : Pat) (hp : p ∈ excludePatterns)
    (htest : p.test t = true) :
    1 ≤ t.data.countP phiHard ∨ 2 ≤ t.data.countP phiSoft := by
  have hcount := test_countP phiHard phiHard_lower_inv p t htest
  have hcount2 := test_countP phiSoft phiSoft_lower_inv p t htest
  rcases excludePatterns_forced p hp with h1 | h2
  · exact Or.inl (le_trans h1 hcount)
  · exact Or.inr (le_trans h2 hcount2)

/-- A title matched by a strong indicator of Halloween, Thanksgiving or
Valentine's carries a hard letter. -/
theorem counts_of_strong_title (A : String)
    (hA : A ∈ ["Halloween", "Thanksgiving", valentinesName]) (t : String)
    (h : (strongIndicators A).any (fun p => p.test t) = true) :
    1 ≤ t.data.countP phiHard := by
  obtain ⟨p, hp, htest⟩ := List.any_eq_true.mp h
  have hforced := strongIndicators_forced A hA p hp
  have hcount := test_countP phiHard phiHard_lower_inv p t htest
  omega

/-- For a holiday other than Christmas the required-movie list is empty, so
the override can never fire. -/
theorem isRequiredMovie_eq_false_of_ne_christmas (m : PlexMedia) (holiday : String)
    (h : (holiday == "Christmas") = false) : isRequiredMovie m holiday = false := by
  match m with
  | .episode .. => rfl
  | .movie k t s y =>
    simp [isRequiredMovie, requiredMovies, isPlexEpisode, h]

/-! ## Score-shape lemmas -/

theorem getMatchScore_of_excludeVeto (additionalTitles : List (String × List String))
    (m : PlexMedia) (holiday : String) (h : excludeVeto m = true) :
    getMatchScore additionalTitles m holiday = 0 := by
  rw [getMatchScore]
  simp [h]

theorem getMatchScore_of_crossSuppress (additionalTitles : List (String × List String))
    (m : PlexMedia) (holiday : String) (h : crossSuppress m holiday = true) :
    getMatchScore additionalTitles m holiday = 0 := by
  rw [getMatchScore]
  by_cases he : excludeVeto m <;> simp [he, h]

theorem foldl_weights (t s : String) (w1 w2 : Nat) :
    ∀ (l : List Pat) (init : Nat),
      l.foldl (fun acc p => if p.test t then acc + w1 else if p.test s then acc + w2 else acc) init
        = init + (l.map fun p => if p.test t then w1 else if p.test s then w2 else 0).sum := by
  intro l
  induction l with
  | nil => intro init; simp
  | cons p ps ih =>
    intro init
    simp only [List.foldl_cons, List.map_cons, List.sum_cons, ih]
    split_ifs with h1 h2
    · rw [Nat.add_assoc]
    · rw [Nat.add_assoc]
    · rw [Nat.zero_add]

/-- With neither veto firing, `getMatchScore` is exactly the weighted sum
of include-pattern and strong-indicator matches. -/
theorem getMatchScore_accum (additionalTitles : List (String × List String))
    (m : PlexMedia) (holiday : String) (he : excludeVeto m = false)
    (hc : crossSuppress m holiday = false) :
    getMatchScore additionalTitles m holiday =
      includeScoreSum additionalTitles m holiday + strongScoreSum m holiday := by
  rw [getMatchScore]
  simp only [he, hc, Bool.false_eq_true, if_false]
  rw [foldl_weights, foldl_weights]
  rw [includeScoreSum, strongScoreSum]
  omega

/-- A strong-indicator title match for another curated holiday triggers the
suppression guard. -/
theorem crossSuppress_of_strong (m : PlexMedia) (A B : String)
    (hA : A ∈ curatedHolidays) (hAB : A ≠ B)
    (h : (strongIndicators A).any (fun p => p.test m.title) = true) :
    crossSuppress m B = true := by
  rw [crossSuppress, List.any_eq_true]
  refine ⟨A, List.mem_filter.mpr ⟨hA, ?_⟩, h⟩
  simp [hAB]

/-- `isMatch` yields `false` whenever the score is below the threshold and
the required-movie override does not fire. -/
theorem isMatch_eq_false (additionalTitles : List (String × List String)) (m : PlexMedia)
    (holiday : String) (hreq : isRequiredMovie m holiday = false)
    (hscore : getMatchScore additionalTitles m holiday = 0) :
    isMatch additionalTitles m holiday = false := by
  rw [isMatch, hreq]
  simp [hscore]

theorem title_withSummary (m : PlexMedia) (s : Option String) :
    (m.withSummary s).title = m.title := by
  cases m <;> rfl

/-- The empty database is well-formed. -/
theorem emptyDb_wf : emptyDb.WF := by
  refine ⟨?_, ?_, ?_⟩ <;> simp [emptyDb]

/-! ## Store-operation lemmas -/

theorem storeMediaItem_fields (db : Db) (m : PlexMedia) :
    (storeMediaItem db m).2.classifications = db.classifications ∧
    (storeMediaItem db m).2.responseCache = db.responseCache := by
  rw [storeMediaItem]
  split <;> exact ⟨rfl, rfl⟩

theorem storeClassifications_fields (mediaItemId : Nat) (cs : List HolidayClassification) :
    ∀ db : Db,
      (storeClassifications db mediaItemId cs).mediaItems = db.mediaItems ∧
      (storeClassifications db mediaItemId cs).responseCache = db.responseCache ∧
      (storeClassifications db mediaItemId cs).nextId = db.nextId := by
  induction cs with
  | nil => intro db; exact ⟨rfl, rfl, rfl⟩
  | cons c cs ih =>
    intro db
    rw [storeClassifications, List.foldl_cons]
    have hstep := ih (if db.classifications.any
        (fun row => row.mediaItemId == mediaItemId && row.holiday == c.holiday)
      then db
      else { db with classifications :=
        db.classifications ++ [⟨mediaItemId, c.holiday, c.confidence, c.reason⟩] })
    rw [storeClassifications] at hstep
    refine ⟨?_, ?_, ?_⟩ <;>
      (first
        | (rw [hstep.1]; split <;> rfl)
        | (rw [hstep.2.1]; split <;> rfl)
        | (rw [hstep.2.2]; split <;> rfl))

theorem cacheResponse_fields (db : Db) (mediaItemId : Nat) (request : RequestPayload)
    (response : AIClassificationResult) :
    (cacheResponse db mediaItemId request response).mediaItems = db.mediaItems ∧
    (cacheResponse db mediaItemId request response).classifications = db.classifications := by
  rw [cacheResponse]
  split <;> exact ⟨rfl, rfl⟩

/-- After `storeMediaItem`, a lookup by the item's key finds a row carrying
the returned id. -/
theorem storeMediaItem_find (db : Db) (m : PlexMedia) :
    ∃ mr, (storeMediaItem db m).2.mediaItems.find? (fun r => r.2.key == m.key) =
      some ((storeMediaItem db m).1, mr) := by
  rw [storeMediaItem]
  split
  next r heq =>
    refine ⟨r.2, ?_⟩
    rw [heq]
  next heq =>
    refine ⟨m, ?_⟩
    show (db.mediaItems ++ [(db.nextId, m)]).find? (fun r => r.2.key == m.key) =
      some (db.nextId, m)
    rw [List.find?_append, heq]
    simp [List.find?]

/-- When the classify cache check missed, no response-cache row carries the
id that `storeMediaItem` returns (well-formedness covers the fresh-id
case). -/
theorem responseCache_fresh (db : Db) (m : PlexMedia) (hwf : db.WF)
    (hnc : getCachedResult db m.key = none) :
    ∀ c ∈ db.responseCache, (c.mediaItemId == (storeMediaItem db m).1) = false := by
  intro c hc
  rw [storeMediaItem]
  split
  next r heq =>
    rw [getCachedResult, heq] at hnc
    rw [Option.map_eq_none'] at hnc
    have := List.find?_eq_none.mp hnc c hc
    simpa using this
  next heq =>
    have hlt := hwf.2.1 c hc
    show (c.mediaItemId == db.nextId) = false
    rw [beq_eq_false_iff_ne]
    omega

/-- With no prior row for the id, `cacheResponse` appends exactly one
row. -/
theorem cacheResponse_append (db : Db) (mediaItemId : Nat) (request : RequestPayload)
    (response : AIClassificationResult)
    (h : ∀ c ∈ db.responseCache, (c.mediaItemId == mediaItemId) = false) :
    (cacheResponse db mediaItemId request response).responseCache =
      db.responseCache ++ [⟨mediaItemId, request, response, modelName⟩] := by
  have hany : (db.responseCache.any fun row => row.mediaItemId == mediaItemId) = false := by
    rw [List.any_eq_false]
    intro c hc
    simp [h c hc]
  rw [cacheResponse, hany]
  simp

/-- Writing a response row through `cacheResponse` (over any intermediate
state that kept the media items of `storeMediaItem` and the response cache
of the original state) makes the item's cache lookup return exactly the
written result. -/
theorem getCachedResult_cacheResponse (db db2 : Db) (m : PlexMedia)
    (payload : RequestPayload) (result : AIClassificationResult)
    (hwf : db.WF) (hnc : getCachedResult db m.key = none)
    (hmi : db2.mediaItems = (storeMediaItem db m).2.mediaItems)
    (hrc : db2.responseCache = db.responseCache) :
    getCachedResult (cacheResponse db2 (storeMediaItem db m).1 payload result) m.key
      = some result := by
  have hfresh : ∀ c ∈ db2.responseCache, (c.mediaItemId == (storeMediaItem db m).1) = false := by
    rw [hrc]
    exact responseCache_fresh db m hwf hnc
  have happ := cacheResponse_append db2 (storeMediaItem db m).1 payload result hfresh
  have hmi2 := (cacheResponse_fields db2 (storeMediaItem db m).1 payload result).1
  rw [getCachedResult, hmi2, hmi]
  obtain ⟨mr, hfind⟩ := storeMediaItem_find db m
  rw [hfind]
  show ((cacheResponse db2 (storeMediaItem db m).1 payload result).responseCache.find?
      (fun c => c.mediaItemId == (storeMediaItem db m).1)).map (·.response) = some result
  rw [happ, List.find?_append]
  have hnone : db2.responseCache.find? (fun c => c.mediaItemId == (storeMediaItem db m).1) = none :=
    List.find?_eq_none.mpr (fun c hc => by simp [hfresh c hc])
  rw [hnone]
  simp [List.find?]

/-- Any `.ok` outcome of the retry loop leaves a response-cache row for the
item holding exactly the returned result. -/
theorem classifyGo_persists (backend : Nat → BackendResp) (m : PlexMedia)
    (payload : RequestPayload) (r : AIClassificationResult) :
    ∀ (fuel retries calls : Nat) (delays : List Int) (db : Db), db.WF →
      getCachedResult db m.key = none →
      (classifyGo backend m payload fuel retries db calls delays).result = .ok r →
      getCachedResult (classifyGo backend m payload fuel retries db calls delays).db m.key
        = some r := by
  intro fuel
  induction fuel with
  | zero =>
    intro retries calls delays db hwf hnc hok
    rw [classifyGo] at hok
    exact absurd hok (by simp)
  | succ fuel ih =>
    intro retries calls delays db hwf hnc hok
    rw [classifyGo] at hok ⊢
    cases hb : backend calls
    case success holidays? =>
      simp only [hb] at hok ⊢
      have hok2 : (⟨mapHolidays (holidays?.getD [])⟩ : AIClassificationResult) = r :=
        Except.ok.inj hok
      rw [← hok2]
      exact getCachedResult_cacheResponse db _ m payload _ hwf hnc
        (storeClassifications_fields _ _ _).1
        (by rw [(storeClassifications_fields _ _ _).2.1]
            exact (storeMediaItem_fields db m).2)
    case contentFilter =>
      simp only [hb] at hok ⊢
      have hok2 : (⟨[]⟩ : AIClassificationResult) = r := Except.ok.inj hok
      rw [← hok2]
      exact getCachedResult_cacheResponse db _ m payload _ hwf hnc rfl
        (storeMediaItem_fields db m).2
    case rateLimit retryAfter =>
      simp only [hb] at hok ⊢
      by_cases hr : retries < maxRetries
      · simp only [if_pos hr] at hok ⊢
        exact ih _ _ _ db hwf hnc hok
      · simp only [if_neg hr] at hok
        exact absurd hok (by simp)
    case otherError =>
      simp only [hb] at hok
      exact absurd hok (by simp)

/-- A successful `classify` leaves the item cached with its returned
result. -/
theorem classify_persists (backend : Nat → BackendResp) (db : Db) (m : PlexMedia)
    (r : AIClassificationResult) (hwf : db.WF)
    (hok : (classify backend db m).result = .ok r) :
    getCachedResult (classify backend db m).db m.key = some r := by
  rw [classify] at hok ⊢
  cases hc : getCachedResult db m.key
  case none =>
    simp only [hc] at hok ⊢
    exact classifyGo_persists backend m (buildPayload m) r _ _ _ _ db hwf hc hok
  case some cached =>
    simp only [hc] at hok ⊢
    rw [Except.ok.inj hok]

/-- A cache hit answers `classify` immediately: identical result, untouched
database, no backend call, no sleep. -/
theorem classify_cached (backend2 : Nat → BackendResp) (db : Db) (m : PlexMedia)
    (r : AIClassificationResult) (h : getCachedResult db m.key = some r) :
    classify backend2 db m = ⟨.ok r, db, 0, []⟩ := by
  rw [classify, h]

/-- When the first attempt is answered (not rate-limited), `classify`
issues at most one backend request. -/
theorem classify_calls_le_one (backend : Nat → BackendResp) (db : Db) (m : PlexMedia)
    (h : ∀ ra, backend 0 ≠ .rateLimit ra) :
    (classify backend db m).backendCalls ≤ 1 := by
  rw [classify]
  cases hc : getCachedResult db m.key
  case some cached => simp
  case none =>
    show (classifyGo backend m (buildPayload m) (maxRetries + 1) 0 db 0 []).backendCalls ≤ 1
    rw [classifyGo]
    cases hb : backend 0
    case success holidays? => simp [hb]
    case contentFilter => simp [hb]
    case rateLimit retryAfter => exact absurd hb (h retryAfter)
    case otherError => simp [hb]

/-- One content-filtered attempt: empty result returned, media item stored,
empty response cached, one request, no sleeps. -/
theorem classify_contentFilter (backend : Nat → BackendResp) (db : Db) (m : PlexMedia)
    (hnc : getCachedResult db m.key = none) (hb : backend 0 = .contentFilter) :
    classify backend db m =
      ⟨.ok ⟨[]⟩,
        cacheResponse (storeMediaItem db m).2 (storeMediaItem db m).1 (buildPayload m) ⟨[]⟩,
        1, []⟩ := by
  rw [classify, hnc]
  show classifyGo backend m (buildPayload m) (maxRetries + 1) 0 db 0 [] = _
  rw [classifyGo]
  simp only [hb]

/-- Unrolling the retry loop under a persistently rate-limiting backend:
with `k + 1` iterations left and the retry budget matching
(`retries + k = maxRetries`, `calls = retries`), the loop fails with the
rate-limit error, makes `k + 1` further requests, leaves the database
untouched, and sleeps the `k` backoff delays for indices `retries`,
`retries + 1`, …. -/
theorem classifyGo_rateLimited (backend : Nat → BackendResp) (m : PlexMedia)
    (payload : RequestPayload) (ra : Nat → Option Int) (db : Db)
    (hb : ∀ n, backend n = .rateLimit (ra n)) :
    ∀ (k retries calls : Nat) (delays : List Int),
      retries + k = maxRetries → calls = retries →
      classifyGo backend m payload (k + 1) retries db calls delays =
        ⟨.error .rateLimited, db, calls + (k + 1),
          delays ++ (List.range k).map (fun i => backoffDelay ra (retries + i))⟩ := by
  intro k
  induction k with
  | zero =>
    intro retries calls delays hinv hcr
    rw [classifyGo]
    simp only [hb calls]
    rw [if_neg (by omega)]
    simp
  | succ k ih =>
    intro retries calls delays hinv hcr
    rw [classifyGo]
    simp only [hb calls]
    rw [if_pos (by omega)]
    rw [ih (retries + 1) (calls + 1) _ (by omega) (by omega)]
    have hcalls : calls + 1 + (k + 1) = calls + (k + 1 + 1) := by omega
    rw [hcalls]
    congr 1
    rw [List.append_assoc]
    refine congrArg (fun t => delays ++ t) ?_
    rw [List.range_succ_eq_map, List.map_cons, List.map_map]
    have h0 : backoffDelay ra (retries + 0) =
        (match ra calls with
         | some r => r
         | none => baseDelay * 2 ^ (retries + 1 - 1)) := by
      rw [backoffDelay, hcr]
      have h1 : retries + 1 - 1 = retries := by omega
      have h2 : retries + 0 = retries := by omega
      rw [h1, h2]
    rw [List.singleton_append, ← h0]
    refine congrArg (fun t => backoffDelay ra (retries + 0) :: t) ?_
    refine List.map_congr_left ?_
    intro i hi
    show backoffDelay ra (retries + 1 + i) = backoffDelay ra (retries + (i + 1))
    have : retries + 1 + i = retries + (i + 1) := by omega
    rw [this]

/-- A persistently rate-limiting backend: six requests, five delays, no
database writes, propagated rate-limit failure. -/
theorem classify_rateLimited (backend : Nat → BackendResp) (db : Db) (m : PlexMedia)
    (ra : Nat → Option Int) (hnc : getCachedResult db m.key = none)
    (hb : ∀ n, backend n = .rateLimit (ra n)) :
    classify backend db m =
      ⟨.error .rateLimited, db, maxRetries + 1,
        [backoffDelay ra 0, backoffDelay ra 1, backoffDelay ra 2,
         backoffDelay ra 3, backoffDelay ra 4]⟩ := by
  rw [classify, hnc]
  show classifyGo backend m (buildPayload m) (maxRetries + 1) 0 db 0 [] = _
  rw [classifyGo_rateLimited backend m (buildPayload m) ra db hb maxRetries 0 0 [] rfl rfl]
  rfl

/-! ## Route-invariant lemmas -/

/-- Everything that survives `routeFilter` has confidence at least 70 and a
selected holiday. -/
theorem routeFilter_mem (selectedHolidays : List String) (hs : List HolidayClassification)
    (h : HolidayClassification) (hmem : h ∈ routeFilter selectedHolidays hs) :
    70 ≤ h.confidence ∧ h.holiday ∈ selectedHolidays := by
  rw [routeFilter] at hmem
  have hcond := (List.mem_filter.mp hmem).2
  rw [Bool.and_eq_true] at hcond
  exact ⟨of_decide_eq_true hcond.1, by simpa using hcond.2⟩

theorem resultsOK_nil (selectedHolidays : List String) : ResultsOK selectedHolidays [] := by
  intro kv hkv
  simp at hkv

/-- `Map.set` preserves the invariant when the inserted list satisfies
it. -/
theorem mapSet_resultsOK (selectedHolidays : List String)
    (results : List (String × List HolidayClassification)) (k : String)
    (v : List HolidayClassification) (hres : ResultsOK selectedHolidays results)
    (hv : ∀ h ∈ v, 70 ≤ h.confidence ∧ h.holiday ∈ selectedHolidays) :
    ResultsOK selectedHolidays (mapSet results k v) := by
  intro kv hkv
  rw [mapSet] at hkv
  split at hkv
  · obtain ⟨p, hp, hpe⟩ := List.mem_map.mp hkv
    by_cases hpk : p.1 == k
    · rw [if_pos hpk] at hpe
      subst hpe
      exact hv
    · rw [if_neg hpk] at hpe
      subst hpe
      exact hres p hp
  · rcases List.mem_append.mp hkv with h | h
    · exact hres kv h
    · rw [List.mem_singleton] at h
      subst h
      exact hv

/-- The cache-hit fold of the route preserves the results-map invariant. -/
theorem bulkCacheStep_resultsOK (selectedHolidays : List String)
    (cachedResults : List (String × CachedClassification)) :
    ∀ (media : List PlexMedia) (acc : List (String × List HolidayClassification) × List PlexMedia),
      ResultsOK selectedHolidays acc.1 →
      ResultsOK selectedHolidays
        ((media.foldl
          (fun acc item =>
            match lookupAssoc cachedResults item.key with
            | some cached =>
              let filtered := routeFilter selectedHolidays cached.holidays
              if 0 < filtered.length then (mapSet acc.1 item.key filtered, acc.2) else acc
            | none => (acc.1, acc.2 ++ [item])) acc)).1 := by
  intro media
  induction media with
  | nil => intro acc h; exact h
  | cons item rest ih =>
    intro acc h
    rw [List.foldl_cons]
    apply ih
    cases hl : lookupAssoc cachedResults item.key
    case none => simpa using h
    case some cached =>
      simp only [hl]
      split
      · exact mapSet_resultsOK selectedHolidays acc.1 item.key _ h
          (fun h0 hh0 => routeFilter_mem selectedHolidays cached.holidays h0 hh0)
      · exact h

/-- The AI loop of the route preserves the results-map invariant. -/
theorem bulkClassifyStep_resultsOK (selectedHolidays : List String)
    (backend : PlexMedia → Nat → BackendResp) :
    ∀ (items : List PlexMedia) (acc : BulkOutcome), ResultsOK selectedHolidays acc.results →
      ResultsOK selectedHolidays (bulkClassifyStep selectedHolidays backend items acc).results := by
  intro items
  induction items with
  | nil => intro acc h; exact h
  | cons item rest ih =>
    intro acc h
    rw [bulkClassifyStep]
    cases hres : (classify (backend item) acc.db item).result
    case error e =>
      simp only [hres]
      exact ih _ h
    case ok r =>
      simp only [hres]
      split
      · exact ih _ (mapSet_resultsOK selectedHolidays acc.results item.key _ h
          (fun h0 hh0 => routeFilter_mem selectedHolidays r.holidays h0 hh0))
      · exact ih _ h

/-! ## Partition lemmas -/

/-- The partition fold is append-of-filterMap / append-of-filter. -/
theorem partition_foldl (cachedResults : List (String × CachedClassification)) :
    ∀ (items : List PlexMedia)
      (acc : List (PlexMedia × CachedClassification) × List PlexMedia),
      items.foldl
        (fun acc media =>
          match lookupAssoc cachedResults media.key with
          | some cachedResult => (acc.1 ++ [(media, cachedResult)], acc.2)
          | none => (acc.1, acc.2 ++ [media])) acc =
      (acc.1 ++ items.filterMap
          (fun m => (lookupAssoc cachedResults m.key).map (fun c => (m, c))),
       acc.2 ++ items.filter (fun m => (lookupAssoc cachedResults m.key).isNone)) := by
  intro items
  induction items with
  | nil => intro acc; simp
  | cons m rest ih =>
    intro acc
    rw [List.foldl_cons, List.filterMap_cons, List.filter_cons]
    cases hl : lookupAssoc cachedResults m.key
    case none =>
      simp only [hl, Option.map_none', Option.isNone_none, if_pos]
      rw [ih]
      simp [List.append_assoc]
    case some c =>
      simp only [hl, Option.map_some', Option.isNone_some]
      rw [ih]
      simp [List.append_assoc]

/-- Splitting by presence of the cache record conserves length. -/
theorem partition_length (cachedResults : List (String × CachedClassification)) :
    ∀ items : List PlexMedia,
      (items.filterMap
        (fun m => (lookupAssoc cachedResults m.key).map (fun c => (m, c)))).length +
      (items.filter (fun m => (lookupAssoc cachedResults m.key).isNone)).length =
      items.length := by
  intro items
  induction items with
  | nil => rfl
  | cons m rest ih =>
    rw [List.filterMap_cons, List.filter_cons]
    cases hl : lookupAssoc cachedResults m.key
    case none =>
      simp only [hl, Option.map_none', Option.isNone_none, if_pos]
      simp only [List.length_cons]
      omega
    case some c =>
      simp only [hl, Option.map_some', Option.isNone_some]
      simp only [List.length_cons, Bool.false_eq_true, if_false]
      omega

/-! ## The claims -/

/-- Claim C1, counterexample: `classify` persists the mapped AI response
without any confidence filter, so a raw entry with confidence 50 lands in
the `ai_classifications` store — contradicting the claim that sub-70
entries never appear in persisted classification rows. -/
theorem c1_counterexample :
    (classify below70Backend emptyDb lowConfItem).db.classifications =
      [⟨0, "Christmas", 50, some "weak festive hint"⟩] ∧
    ((classify below70Backend emptyDb lowConfItem).db.classifications.any
      (fun row => decide (row.confidence < 70))) = true := by
  constructor
  · decide
  · decide

/-- Claim C1, amended: every entry of the bulk-classification endpoint's
output map has confidence at least 70 and a selected holiday (the route
filters both the cached and the freshly classified results); the persisted
classification rows, by contrast, store the mapped response unfiltered. -/
theorem c1_confidence_floor_amended (media : List PlexMedia) (selectedHolidays : List String)
    (useAI : Bool) (db : Db) (backend : PlexMedia → Nat → BackendResp) :
    ∀ kv ∈ (bulkClassifyPOST media selectedHolidays useAI db backend).results,
      ∀ h ∈ kv.2, 70 ≤ h.confidence ∧ h.holiday ∈ selectedHolidays := by
  rw [bulkClassifyPOST]
  by_cases hAI : useAI
  · rw [if_pos hAI]
    exact bulkClassifyStep_resultsOK selectedHolidays backend _ _
      (bulkCacheStep_resultsOK selectedHolidays _ media ([], []) (resultsOK_nil _))
  · rw [if_neg hAI]
    exact bulkCacheStep_resultsOK selectedHolidays _ media ([], []) (resultsOK_nil _)

/-- Witness for C1's amended theorem: a concrete bulk run whose output map
contains one entry, shown to satisfy the floor by the theorem. -/
theorem c1_witness :
    (("mv-b1", [(⟨"Christmas", 90, some "santa all over"⟩ : HolidayClassification)]) ∈
      (bulkClassifyPOST [bulkItem] ["Christmas"] true emptyDb bulkBackend).results) ∧
    (70 : Int) ≤ 90 ∧ "Christmas" ∈ ["Christmas"] :=
  ⟨by decide,
    c1_confidence_floor_amended [bulkItem] ["Christmas"] true emptyDb bulkBackend
      ("mv-b1", [⟨"Christmas", 90, some "santa all over"⟩]) (by decide)
      ⟨"Christmas", 90, some "santa all over"⟩ (by decide)⟩

/-- Claim C2 (idempotent caching): if the first `classify` of an item
returns a result, that result is persisted, and a second `classify` of the
same item — under any backend — answers from cache with the identical
result, an unchanged database, zero backend calls and zero sleeps;
moreover, when the first attempt is answered outright (no rate limiting),
the two calls together issue at most one backend call. -/
theorem c2_idempotent_caching (backend backend2 : Nat → BackendResp) (db : Db)
    (m : PlexMedia) (r : AIClassificationResult) (hwf : db.WF)
    (hok : (classify backend db m).result = .ok r) :
    classify backend2 (classify backend db m).db m =
      ⟨.ok r, (classify backend db m).db, 0, []⟩ ∧
    ((∀ ra, backend 0 ≠ .rateLimit ra) →
      (classify backend db m).backendCalls +
        (classify backend2 (classify backend db m).db m).backendCalls ≤ 1) := by
  have hpersist := classify_persists backend db m r hwf hok
  have hsecond := classify_cached backend2 (classify backend db m).db m r hpersist
  refine ⟨hsecond, fun hfirst => ?_⟩
  have h1 := classify_calls_le_one backend db m hfirst
  rw [hsecond]
  simpa using h1

/-- Witness for C2 at a concrete item and a successful backend. -/
theorem c2_witness :
    classify okEmptyBackend (classify okEmptyBackend emptyDb c2Item).db c2Item =
      ⟨.ok ⟨[]⟩, (classify okEmptyBackend emptyDb c2Item).db, 0, []⟩ ∧
    (classify okEmptyBackend emptyDb c2Item).backendCalls +
      (classify okEmptyBackend (classify okEmptyBackend emptyDb c2Item).db c2Item).backendCalls
      ≤ 1 := by
  obtain ⟨h1, h2⟩ := c2_idempotent_caching okEmptyBackend okEmptyBackend emptyDb c2Item
    ⟨[]⟩ emptyDb_wf (by decide)
  exact ⟨h1, h2 (fun ra h => by simp [okEmptyBackend] at h)⟩

/-- Claim C3 (content-filter handling): on an uncached item whose first
attempt is content-filtered, `classify` returns the empty result without
raising, after exactly one backend request and no retries or sleeps; the
classification rows are untouched, exactly one empty-result cache row is
appended, and a subsequent `classify` of the item answers from cache with
no backend call. -/
theorem c3_content_filter_handling (backend : Nat → BackendResp) (db : Db) (m : PlexMedia)
    (hwf : db.WF) (hnc : getCachedResult db m.key = none)
    (hb : backend 0 = .contentFilter) :
    (classify backend db m).result = .ok ⟨[]⟩ ∧
    (classify backend db m).backendCalls = 1 ∧
    (classify backend db m).delays = [] ∧
    (classify backend db m).db.classifications = db.classifications ∧
    (classify backend db m).db.responseCache =
      db.responseCache ++ [⟨(storeMediaItem db m).1, buildPayload m, ⟨[]⟩, modelName⟩] ∧
    (∀ backend2, classify backend2 (classify backend db m).db m =
      ⟨.ok ⟨[]⟩, (classify backend db m).db, 0, []⟩) := by
  have hcf := classify_contentFilter backend db m hnc hb
  refine ⟨by rw [hcf], by rw [hcf], by rw [hcf], ?_, ?_, ?_⟩
  · rw [hcf]
    show (cacheResponse (storeMediaItem db m).2 (storeMediaItem db m).1
      (buildPayload m) ⟨[]⟩).classifications = db.classifications
    rw [(cacheResponse_fields _ _ _ _).2]
    exact (storeMediaItem_fields db m).1
  · rw [hcf]
    show (cacheResponse (storeMediaItem db m).2 (storeMediaItem db m).1
      (buildPayload m) ⟨[]⟩).responseCache = _
    rw [cacheResponse_append _ _ _ _ ?fresh]
    · rw [(storeMediaItem_fields db m).2]
    case fresh =>
      intro c hc
      rw [(storeMediaItem_fields db m).2] at hc
      exact responseCache_fresh db m hwf hnc c hc
  · intro backend2
    exact classify_cached backend2 _ m ⟨[]⟩
      (classify_persists backend db m ⟨[]⟩ hwf (by rw [hcf]))

/-- Witness for C3 at a concrete content-filtered item. -/
theorem c3_witness :
    (classify cfBackend emptyDb c3Item).result = .ok ⟨[]⟩ ∧
    (classify cfBackend emptyDb c3Item).backendCalls = 1 ∧
    (classify cfBackend emptyDb c3Item).delays = [] ∧
    classify cfBackend (classify cfBackend emptyDb c3Item).db c3Item =
      ⟨.ok ⟨[]⟩, (classify cfBackend emptyDb c3Item).db, 0, []⟩ := by
  obtain ⟨h1, h2, h3, _, _, h6⟩ :=
    c3_content_filter_handling cfBackend emptyDb c3Item emptyDb_wf rfl rfl
  exact ⟨h1, h2, h3, h6 cfBackend⟩

/-- Claim C4 (rate-limit retry bound): under a persistently rate-limiting
backend, an uncached `classify` issues exactly `maxRetries + 1 = 6`
requests, sleeps the five backoff delays — the backend-supplied
retry-after when present, otherwise `baseDelay * 2 ^ i` seconds, i.e.
2, 4, 8, 16, 32 — writes nothing, and propagates the rate-limit
failure. -/
theorem c4_rate_limit_retry_bound (backend : Nat → BackendResp) (db : Db) (m : PlexMedia)
    (ra : Nat → Option Int) (hnc : getCachedResult db m.key = none)
    (hb : ∀ n, backend n = .rateLimit (ra n)) :
    maxRetries + 1 = 6 ∧
    classify backend db m =
      ⟨.error .rateLimited, db, maxRetries + 1,
        [backoffDelay ra 0, backoffDelay ra 1, backoffDelay ra 2,
         backoffDelay ra 3, backoffDelay ra 4]⟩ ∧
    (∀ i r, ra i = some r → backoffDelay ra i = r) ∧
    (∀ i, ra i = none → backoffDelay ra i = baseDelay * 2 ^ i) := by
  refine ⟨rfl, classify_rateLimited backend db m ra hnc hb, ?_, ?_⟩
  · intro i r h
    rw [backoffDelay, h]
  · intro i h
    rw [backoffDelay, h]

/-- Witness for C4: a concrete run with no retry-after header yields the
pure exponential backoff 2, 4, 8, 16, 32 and six calls. -/
theorem c4_witness :
    classify rlBackend emptyDb c4Item =
      ⟨.error .rateLimited, emptyDb, 6, [2, 4, 8, 16, 32]⟩ := by
  have h := (c4_rate_limit_retry_bound rlBackend emptyDb c4Item (fun _ => none)
    rfl (fun n => rfl)).2.1
  rw [h]
  rfl

/-- Claim C5 (exclude-pattern veto): any item whose title or summary
matches an exclude pattern scores 0 for every holiday; in particular an
item whose title matches both an include pattern and an exclude pattern
for the same holiday scores 0 there and is not a match. -/
theorem c5_exclude_pattern_veto (additionalTitles : List (String × List String))
    (m : PlexMedia) (holiday : String) :
    (excludeVeto m = true → getMatchScore additionalTitles m holiday = 0) ∧
    ((∃ p ∈ excludePatterns, p.test m.title = true) →
      (∃ q ∈ includePatternsFor additionalTitles holiday, q.test m.title = true) →
      getMatchScore additionalTitles m holiday = 0 ∧
      isMatch additionalTitles m holiday = false) := by
  refine ⟨getMatchScore_of_excludeVeto additionalTitles m holiday, ?_⟩
  rintro ⟨p, hp, htest⟩ _
  have hveto : excludeVeto m = true := by
    rw [excludeVeto, List.any_eq_true]
    exact ⟨p, hp, by simp [htest]⟩
  have hscore := getMatchScore_of_excludeVeto additionalTitles m holiday hveto
  exact ⟨hscore, isMatch_eq_false additionalTitles m holiday
    (isRequiredMovie_eq_false_of_forced m (counts_of_exclude_title m.title p hp htest) holiday)
    hscore⟩

/-- Witness for C5 at "Christmas Island", whose title matches both the
include pattern for Christmas and the exclude pattern. -/
theorem c5_witness :
    getMatchScore [] christmasIslandItem "Christmas" = 0 ∧
    isMatch [] christmasIslandItem "Christmas" = false :=
  (c5_exclude_pattern_veto [] christmasIslandItem "Christmas").2 (by decide) (by decide)

/-- Claim C6 (cross-holiday suppression, title-only): a strong-indicator
title match for any other curated holiday forces score 0 and a negative
match decision for the queried curated holiday, while the suppression
guard is blind to the summary (replacing the summary never changes
it). -/
theorem c6_cross_holiday_suppression (additionalTitles : List (String × List String))
    (m : PlexMedia) (B : String) (hB : B ∈ curatedHolidays) :
    (∀ A, A ∈ curatedHolidays → A ≠ B →
      (strongIndicators A).any (fun p => p.test m.title) = true →
      getMatchScore additionalTitles m B = 0 ∧ isMatch additionalTitles m B = false) ∧
    (∀ s1 s2 : Option String,
      crossSuppress (m.withSummary s1) B = crossSuppress (m.withSummary s2) B) := by
  constructor
  · intro A hA hAB hstrong
    have hsupp := crossSuppress_of_strong m A B hA hAB hstrong
    have hscore := getMatchScore_of_crossSuppress additionalTitles m B hsupp
    refine ⟨hscore, ?_⟩
    have hreq : isRequiredMovie m B = false := by
      by_cases hBc : (B == "Christmas") = true
      · have hBeq : B = "Christmas" := beq_iff_eq.mp hBc
        subst hBeq
        have hA3 : A ∈ ["Halloween", "Thanksgiving", valentinesName] := by
          rw [curatedHolidays] at hA
          simp only [List.mem_cons, List.not_mem_nil, or_false] at hA
          rcases hA with rfl | rfl | rfl | rfl
          · exact by simp
          · exact by simp
          · exact absurd rfl hAB
          · exact by simp
        exact isRequiredMovie_eq_false_of_forced m
          (Or.inl (counts_of_strong_title A hA3 m.title hstrong)) "Christmas"
      · exact isRequiredMovie_eq_false_of_ne_christmas m B (by simpa using hBc)
    exact isMatch_eq_false additionalTitles m B hreq hscore
  · intro s1 s2
    rw [crossSuppress, crossSuppress, title_withSummary, title_withSummary]

/-- Witness for C6: a Halloween-titled movie is suppressed for
Christmas. -/
theorem c6_witness :
    getMatchScore [] halloweenTitledItem "Christmas" = 0 ∧
    isMatch [] halloweenTitledItem "Christmas" = false :=
  (c6_cross_holiday_suppression [] halloweenTitledItem "Christmas" (by decide)).1
    "Halloween" (by decide) (by decide) (by decide)

/-- Claim C7 (score accumulation): outside the two vetoes the score is the
weighted sum — 10/3 per include pattern on title/summary-only, 15/5 per
strong indicator — it is unbounded above (supplementary titles can push it
past any bound), and the spec's example holds: "Treehouse of Horror IX"
scores 25 (≥ 25) for Halloween and matches, scores 0 for Christmas and
does not match. -/
theorem c7_score_accumulation :
    (∀ (additionalTitles : List (String × List String)) (m : PlexMedia) (holiday : String),
      excludeVeto m = false → crossSuppress m holiday = false →
      getMatchScore additionalTitles m holiday =
        includeScoreSum additionalTitles m holiday + strongScoreSum m holiday) ∧
    (∀ n : Nat,
      n ≤ getMatchScore [("Halloween", List.replicate n "Treehouse of Horror IX")]
            treehouseItem "Halloween") ∧
    getMatchScore [] treehouseItem "Halloween" = 25 ∧
    isMatch [] treehouseItem "Halloween" = true ∧
    getMatchScore [] treehouseItem "Christmas" = 0 ∧
    isMatch [] treehouseItem "Christmas" = false := by
  refine ⟨getMatchScore_accum, ?_, by decide, by decide, by decide, by decide⟩
  intro n
  have he : excludeVeto treehouseItem = false := by decide
  have hc : crossSuppress treehouseItem "Halloween" = false := by decide
  rw [getMatchScore_accum _ _ _ he hc]
  have hip : includePatternsFor [("Halloween", List.replicate n "Treehouse of Horror IX")]
      "Halloween" =
      halloweenKeywords ++ List.replicate n (compileScrapedTitle "Treehouse of Horror IX") := by
    rw [includePatternsFor]
    rw [if_pos (by decide)]
    simp [curatedKeywords, lookupAssoc, List.find?, List.map_replicate]
  have hinc : includeScoreSum [("Halloween", List.replicate n "Treehouse of Horror IX")]
      treehouseItem "Halloween" = 10 + n * 10 := by
    rw [includeScoreSum, hip, List.map_append, List.sum_append, List.map_replicate]
    have h1 : (halloweenKeywords.map fun p =>
        if p.test treehouseItem.title then 10
        else if p.test (treehouseItem.summary.getD "") then 3 else 0).sum = 10 := by decide
    have h2 : (if (compileScrapedTitle "Treehouse of Horror IX").test treehouseItem.title
        then (10 : Nat)
        else if (compileScrapedTitle "Treehouse of Horror IX").test (treehouseItem.summary.getD "")
        then 3 else 0) = 10 := by decide
    rw [h1, h2, List.sum_replicate, smul_eq_mul]
  have hstr : strongScoreSum treehouseItem "Halloween" = 15 := by decide
  rw [hinc, hstr]
  omega

/-- Witness for C7's accumulation formula at the example episode. -/
theorem c7_witness :
    getMatchScore [] treehouseItem "Halloween" =
      includeScoreSum [] treehouseItem "Halloween" + strongScoreSum treehouseItem "Halloween" :=
  c7_score_accumulation.1 [] treehouseItem "Halloween" (by decide) (by decide)

/-- Claim C8, counterexample: a movie whose title matches the required
entry after article normalization with a year one off — satisfying the
claim's combined (normalized, ±1 year) criterion — is nevertheless not a
match, because the code's normalized branch demands the exact year and the
keyword path can be vetoed by an exclude-pattern hit in the summary. -/
theorem c8_counterexample :
    claimRequiredCriterion nearCarolItem "Christmas" = true ∧
    isMatch [] nearCarolItem "Christmas" = false := by
  exact ⟨by decide, by decide⟩

/-- Claim C8, amended: the override matches the code criterion — the ±1
tolerance applies only together with the exact lowercased-title comparison
(and a truthy year), while the article/punctuation-normalized comparison
demands the exact year; any item passing `isRequiredMovie` is reported as
a match regardless of score, and the override never applies to
episodes. -/
theorem c8_required_title_override_amended :
    (∀ (m : PlexMedia) (holiday : String),
      isRequiredMovie m holiday = amendedRequiredCriterion m holiday) ∧
    (∀ (additionalTitles : List (String × List String)) (m : PlexMedia) (holiday : String),
      isRequiredMovie m holiday = true → isMatch additionalTitles m holiday = true) ∧
    (∀ (m : PlexMedia) (holiday : String),
      isPlexEpisode m = true → isRequiredMovie m holiday = false) := by
  refine ⟨?_, ?_, ?_⟩
  · intro m holiday
    match m with
    | .episode .. => rfl
    | .movie k t s yr =>
      simp only [isRequiredMovie, amendedRequiredCriterion, isPlexEpisode,
        Bool.false_eq_true, if_false]
      congr 1
      funext req
      rw [Bool.and_or_distrib_left]
  · intro additionalTitles m holiday h
    simp [isMatch, h]
  · intro m holiday h
    match m with
    | .episode .. => rfl
    | .movie .. => simp [isPlexEpisode] at h

/-- Witness for C8's amended theorem: the required movie itself, matched
through the override. -/
theorem c8_witness : isMatch [] carolItem "Christmas" = true :=
  c8_required_title_override_amended.2.1 [] carolItem "Christmas" (by decide)

/-- Failed fetches degrade `scrapeTitles` to the empty map (helper shared
by C9's conjuncts). -/
theorem scrapeTitles_fail (selected : Option (List String)) (fetch : FetchOutcome)
    (hf : fetchFails fetch = true) :
    scrapeTitles false none selected fetch = ([], 1) := by
  cases fetch with
  | netFail => rfl
  | httpFail s => rfl
  | okData err entries =>
    cases err with
    | some e => rfl
    | none => rw [fetchFails] at hf; exact absurd hf (by simp)

/-- Claim C9 (corpus fetch degradation): skipping returns the empty map
with no fetch; any fetch error (network failure, bad status, error
payload) returns the empty map instead of raising; and the matcher built
from the degraded result scores exactly as the curated-keywords-only
matcher. -/
theorem c9_corpus_fetch_degradation :
    (∀ (cache : Option (List (String × JsonVal))) (selected : Option (List String))
      (fetch : FetchOutcome), scrapeTitles true cache selected fetch = ([], 0)) ∧
    (∀ (selected : Option (List String)) (fetch : FetchOutcome), fetchFails fetch = true →
      scrapeTitles false none selected fetch = ([], 1)) ∧
    (∀ (selected : Option (List String)) (fetch : FetchOutcome), fetchFails fetch = true →
      ∀ (m : PlexMedia) (holiday : String),
        getMatchScore (scrapeTitles false none selected fetch).1 m holiday =
          getMatchScore [] m holiday) := by
  refine ⟨fun _ _ _ => rfl, scrapeTitles_fail, ?_⟩
  intro selected fetch hf m holiday
  have h1 : (scrapeTitles false none selected fetch).1 = [] :=
    congrArg Prod.fst (scrapeTitles_fail selected fetch hf)
  rw [h1]

/-- Witness for C9 at a concrete network failure. -/
theorem c9_witness :
    scrapeTitles false none none FetchOutcome.netFail = ([], 1) ∧
    getMatchScore (scrapeTitles false none none FetchOutcome.netFail).1
        treehouseItem "Halloween" =
      getMatchScore [] treehouseItem "Halloween" :=
  ⟨c9_corpus_fetch_degradation.2.1 none .netFail rfl,
    c9_corpus_fetch_degradation.2.2 none .netFail rfl treehouseItem "Halloween"⟩

/-- Claim C10 (partition correctness): `partitionMediaByCache` puts each
input item in `cached` (paired with its record) exactly when its key is in
the bulk lookup result and in `needsClassification` otherwise — both
components are order-preserving filters of the input — and the two output
lengths sum to the input length. -/
theorem c10_partition_by_cache (db : Db) (items : List PlexMedia) :
    (partitionMediaByCache db items).1 =
      items.filterMap (fun m =>
        (lookupAssoc (getBulkCachedClassifications db (items.map (·.key))) m.key).map
          (fun c => (m, c))) ∧
    (partitionMediaByCache db items).2 =
      items.filter (fun m =>
        (lookupAssoc (getBulkCachedClassifications db (items.map (·.key))) m.key).isNone) ∧
    (partitionMediaByCache db items).1.length + (partitionMediaByCache db items).2.length =
      items.length := by
  have hmain : partitionMediaByCache db items =
      (items.filterMap (fun m =>
        (lookupAssoc (getBulkCachedClassifications db (items.map (·.key))) m.key).map
          (fun c => (m, c))),
       items.filter (fun m =>
        (lookupAssoc (getBulkCachedClassifications db (items.map (·.key))) m.key).isNone)) := by
    simp only [partitionMediaByCache]
    rw [partition_foldl]
    simp
  refine ⟨by rw [hmain], by rw [hmain], ?_⟩
  rw [hmain]
  exact partition_length _ items

end PlexHoliday
